import Mathlib

/-!
# Verification development for the face-recognition access server

Shallow embedding of the handlers of `src/server/routes/scan.js` (`POST /recognize`,
`GET /history`, `GET /stats`, `DELETE /history`) and of
`src/server/routes/employees.js` (`POST /`, `PUT /:id`, `DELETE /:id`,
`POST /:id/face-encoding`), together with the two Sequelize models they write to
and read from (`src/server/models/ScanHistory.js`, `src/server/models/Employee.js`)
and the dashboard action `handleDeleteEmployee` of
`src/client/components/admin-dashboard.tsx`.

Modelling conventions

* The database is an explicit value `Db`; `ScanHistory.create` appends a row and
  draws its primary key from an auto-increment counter.
* JavaScript exceptions raised inside the handler's `try` block are modelled by
  `Except String`, the string being `error.message`.  Effects performed before
  the exception are kept, exactly as in JavaScript.
* The recognition service is external.  Its reply to one request is a parameter
  (`Env.oracle`): either the exception thrown by `axios.post` (timeout, transport
  error, non-2xx status) or the three fields the handler destructures from
  `pythonResponse.data`.
* The reply is typed as the service's interface gives it: `recognized` a boolean,
  `employeeId` an integer primary key or `null`, `confidence` a number or `null`.
* Database calls succeed and requests run one at a time; storage failures and
  interleavings of concurrent requests are outside the model.  The one
  exception is a statement whose outcome depends on the SQL dialect, which is
  configured outside the repository: there the database's answer, an error
  included, is a parameter (`PurgeEnv.invalidDate`, `HistoryEnv.outside`).
* Timestamps are milliseconds since the epoch, as natural numbers.  Local time
  enters through `Date.prototype.setHours`; the time zone of the server process
  is a parameter (`TimeZone`).
* `ORDER BY scanned_at DESC` leaves the order of rows with equal timestamps to
  the database; the order it returns is a parameter (`HistoryEnv.order`).
* A confidence is a finite IEEE double carried in JSON; every such value is a
  rational number, so confidences are values of `ℚ`.  The handler only copies
  them and tests them for truthiness.
-/

namespace FaceRecg

/-! ## Data model -/

/-- Values of the `scan_type` ENUM column (`models/ScanHistory.js`, lines 19-23). -/
inductive ScanType
  | success
  | failed
  | unknown
  deriving DecidableEq, Repr

/-- A row of table `employees` (`models/Employee.js`). -/
structure Employee where
  id : Nat
  employeeId : String
  name : String
  specialty : String
  city : String
  birthDate : String
  imagePath : Option String
  faceEncoding : Option String
  isActive : Bool
  createdAt : Nat
  updatedAt : Nat
  deriving DecidableEq, Repr

/-- A row of table `scan_history` (`models/ScanHistory.js`). -/
structure ScanHistory where
  id : Nat
  employeeId : Option Nat
  scanType : ScanType
  confidence : Option ℚ
  imagePath : Option String
  ipAddress : Option String
  userAgent : Option String
  location : Option String
  notes : Option String
  scannedAt : Nat
  deriving DecidableEq, Repr

/-- The two tables and their auto-increment counters. -/
structure Db where
  employees : List Employee
  scans : List ScanHistory
  nextEmployeeId : Nat
  nextScanId : Nat
  deriving DecidableEq, Repr

/-- The object literal handed to `ScanHistory.create`; a key that is left out is
stored as NULL (every column but `scan_type` has `allowNull: true`). -/
structure ScanValues where
  employeeId : Option Nat := none
  scanType : ScanType
  confidence : Option ℚ := none
  imagePath : Option String := none
  ipAddress : Option String := none
  userAgent : Option String := none
  location : Option String := none
  notes : Option String := none
  deriving DecidableEq, Repr

/-- Sequelize `ScanHistory.create(values)`: builds the instance with the next
auto-increment `id` and `scannedAt` defaulting to the current time, inserts it,
and returns it. -/
def ScanHistory.create (db : Db) (v : ScanValues) (now : Nat) : Db × ScanHistory :=
  let row : ScanHistory :=
    { id := db.nextScanId
      employeeId := v.employeeId
      scanType := v.scanType
      confidence := v.confidence
      imagePath := v.imagePath
      ipAddress := v.ipAddress
      userAgent := v.userAgent
      location := v.location
      notes := v.notes
      scannedAt := now }
  ({ db with scans := db.scans ++ [row], nextScanId := db.nextScanId + 1 }, row)

/-- Sequelize `Employee.findByPk(id)`: the row whose primary key is `id`, if any. -/
def findByPk (employees : List Employee) (id : Nat) : Option Employee :=
  employees.find? (fun e => e.id == id)

/-! ## JavaScript truthiness and `||` on the values the handler tests -/

/-- Truthiness of a string-or-undefined value: `undefined` and `""` are falsy. -/
def truthyStr : Option String → Bool
  | some s => s != ""
  | none => false

/-- The expression `a || b` on string-or-undefined operands. -/
def jsOrStr (a b : Option String) : Option String :=
  if truthyStr a then a else b

/-- Truthiness of a number-or-null value: `null` and `0` are falsy. -/
def truthyNum : Option ℚ → Bool
  | some q => q != 0
  | none => false

/-- The expression `confidence || 0`. -/
def jsOrZero (c : Option ℚ) : Option ℚ :=
  if truthyNum c then c else some 0

/-- Truthiness of an id-or-null value: `null` and `0` are falsy. -/
def truthyId : Option Nat → Bool
  | some n => n != 0
  | none => false

/-! ## Request, environment, response -/

/-- The object `req.file` set by multer. -/
structure UploadedFile where
  path : String
  filename : String
  deriving DecidableEq, Repr

/-- The parts of the express request the handler reads. -/
structure Request where
  file : Option UploadedFile
  ip : Option String
  remoteAddress : Option String
  userAgent : Option String
  location : Option String
  deriving DecidableEq, Repr

/-- The fields destructured from `pythonResponse.data` (scan.js line 73). -/
structure RecognizeData where
  recognized : Bool
  employeeId : Option Nat
  confidence : Option ℚ
  deriving DecidableEq, Repr

/-- Behaviour of `io.emit` for this request. -/
inductive Emitter
  | returns
  | throws (msg : String)
  deriving DecidableEq, Repr

/-- Everything outside the handler that one request depends on. -/
structure Env where
  /-- Outcome of `await axios.post(.../recognize)`: the thrown error's message, or
  the response data. -/
  oracle : Except String RecognizeData
  /-- Result of `req.app.get('io')`; `none` when no socket server is registered. -/
  io : Option Emitter
  /-- Clock reading when a row is created inside the `try` block. -/
  now : Nat
  /-- Clock reading of `new Date()` in the notification. -/
  emitNow : Nat
  /-- Clock reading when the row is created inside the `catch` block. -/
  catchNow : Nat

/-- Payload of the `scanResult` event (scan.js lines 109-115). -/
structure Notification where
  type : ScanType
  employee : Option Employee
  confidence : Option ℚ
  timestamp : Nat
  ipAddress : Option String
  deriving DecidableEq, Repr

/-- Success body of `res.json` (scan.js lines 118-126). -/
structure ResultBody where
  recognized : Bool
  employee : Option Employee
  confidence : Option ℚ
  scanId : Nat
  message : String
  deriving DecidableEq, Repr

/-- JSON bodies the handler sends. -/
inductive Body
  | error (error : String) (message : Option String)
  | result (b : ResultBody)
  deriving DecidableEq, Repr

/-- An HTTP response: status code and JSON body. -/
structure Response where
  status : Nat
  body : Body
  deriving DecidableEq, Repr

/-- Effects accumulated by the handler. -/
structure Effects where
  db : Db
  oracleCalls : Nat
  emitted : List Notification
  deriving DecidableEq, Repr

/-- What one run of the handler leaves behind. -/
structure Outcome where
  db : Db
  oracleCalls : Nat
  emitted : List Notification
  response : Response
  deriving DecidableEq, Repr

/-! ## The handler `router.post('/recognize')` -/

/-- Message of the `TypeError` raised by `scanResult.id` when `scanResult` is
`undefined` (V8 wording). -/
def errReadIdOfUndefined : String :=
  "Cannot read properties of undefined (reading \x27id\x27)"

/-- Message of the `TypeError` raised by `employee.name` when `employee` is
`null` (V8 wording). -/
def errReadNameOfNull : String :=
  "Cannot read properties of null (reading \x27name\x27)"

/-- Lines 75-104: decide the branch and write the row.  Returns the database,
the variable `scanResult` (`none` for `undefined`) and the variable `employee`.
Inside the first branch `employeeId` is truthy, so `getD` returns the id the
oracle sent. -/
def recordAttempt (req : Request) (env : Env) (db : Db) (imagePath : String)
    (data : RecognizeData) : Db × Option ScanHistory × Option Employee :=
  let clientIP := jsOrStr req.ip req.remoteAddress
  let userAgent := req.userAgent
  if data.recognized && truthyId data.employeeId then
    match findByPk db.employees (data.employeeId.getD 0) with
    | some employee =>
      let (db1, scanResult) := ScanHistory.create db
        { employeeId := some employee.id
          scanType := ScanType.success
          confidence := data.confidence
          imagePath := some imagePath
          ipAddress := clientIP
          userAgent := userAgent
          location := jsOrStr req.location none } env.now
      (db1, some scanResult, some employee)
    | none => (db, none, none)
  else
    let (db1, scanResult) := ScanHistory.create db
      { scanType := ScanType.failed
        confidence := jsOrZero data.confidence
        imagePath := some imagePath
        ipAddress := clientIP
        userAgent := userAgent
        location := jsOrStr req.location none
        notes := some "Face not recognized" } env.now
    (db1, some scanResult, none)

/-- Lines 118-126: evaluate the argument of `res.json` left to right and send
it.  `scanResult.id` throws when `scanResult` is `undefined`; `employee.name`
throws when `recognized` is truthy and `employee` is `null`. -/
def respond (data : RecognizeData) (scanResult : Option ScanHistory)
    (employee : Option Employee) : Except String Response :=
  match scanResult with
  | none => Except.error errReadIdOfUndefined
  | some row =>
    if data.recognized then
      match employee with
      | none => Except.error errReadNameOfNull
      | some e =>
        Except.ok
          { status := 200
            body := Body.result
              { recognized := data.recognized
                employee := employee
                confidence := data.confidence
                scanId := row.id
                message := "Welcome, " ++ e.name ++ "!" } }
    else
      Except.ok
        { status := 200
          body := Body.result
            { recognized := data.recognized
              employee := employee
              confidence := data.confidence
              scanId := row.id
              message := "You are not an employee here. Access denied." } }

/-- The `try` block, lines 39-126.  The first component holds the effects done
so far, also when the block ends with an exception. -/
def tryBlock (req : Request) (env : Env) (db : Db) : Effects × Except String Response :=
  match req.file with
  | none =>
    ({ db := db, oracleCalls := 0, emitted := [] },
      Except.ok { status := 400, body := Body.error "No image file provided" none })
  | some file =>
    match env.oracle with
    | Except.error msg => ({ db := db, oracleCalls := 1, emitted := [] }, Except.error msg)
    | Except.ok data =>
      match recordAttempt req env db file.path data with
      | (db1, scanResult, employee) =>
        match env.io with
        | some (Emitter.throws msg) =>
          ({ db := db1, oracleCalls := 1, emitted := [] }, Except.error msg)
        | some Emitter.returns =>
          ({ db := db1, oracleCalls := 1,
             emitted := [{ type := if data.recognized then ScanType.success else ScanType.failed
                           employee := employee
                           confidence := data.confidence
                           timestamp := env.emitNow
                           ipAddress := jsOrStr req.ip req.remoteAddress }] },
            respond data scanResult employee)
        | none =>
          ({ db := db1, oracleCalls := 1, emitted := [] }, respond data scanResult employee)

/-- The row logged by the `catch` block, lines 132-138. -/
def catchValues (req : Request) (msg : String) : ScanValues :=
  { scanType := ScanType.failed
    imagePath := req.file.map (fun f => f.path)
    ipAddress := jsOrStr req.ip req.remoteAddress
    userAgent := req.userAgent
    notes := some ("Recognition error: " ++ msg) }

/-- The whole handler `router.post('/recognize', ...)`, lines 38-145. -/
def recognize (req : Request) (env : Env) (db : Db) : Outcome :=
  match tryBlock req env db with
  | (fx, Except.ok res) =>
    { db := fx.db, oracleCalls := fx.oracleCalls, emitted := fx.emitted, response := res }
  | (fx, Except.error msg) =>
    { db := (ScanHistory.create fx.db (catchValues req msg) env.catchNow).1
      oracleCalls := fx.oracleCalls
      emitted := fx.emitted
      response :=
        { status := 500
          body := Body.error "Face recognition failed"
            (some "Unable to process face recognition at this time.") } }

/-- The rows a run of the handler added to `scan_history`. -/
def newRows (req : Request) (env : Env) (db : Db) : List ScanHistory :=
  (recognize req env db).db.scans.drop db.scans.length

/-! ## JavaScript numbers

Counts, page sizes and timestamps are integers far below `2 ^ 53` and are exact
as doubles.  The two places where the server divides (`successScans / totalScans`
in the statistics, `count / limit` in the history) produce doubles that are
rounded, and so does the offset `(page - 1) * limit` of the history, whose page
number is whatever the query string gives.  The rounding of the runtime is a
parameter `fl : ℚ → ℚ` of the handlers concerned; `IsDoubleRounding` states the
two facts about IEEE-754 binary64 round-to-nearest that the proofs rely on. -/

/-- Properties of round-to-nearest on binary64: integers of magnitude at most
`2 ^ 53` are representable, and inside the normal range the relative error is
at most `2 ^ -53`. -/
structure IsDoubleRounding (fl : ℚ → ℚ) : Prop where
  exact_int : ∀ n : ℤ, |n| ≤ 2 ^ 53 → fl (n : ℚ) = (n : ℚ)
  rel_err : ∀ x : ℚ, 1 / 2 ^ 1022 ≤ x → x ≤ 2 ^ 1023 → |fl x - x| ≤ x / 2 ^ 53

/-- The digits of `x.toFixed(2)` read as a number of hundredths: the integer
`n` for which `n / 100 - x` is closest to zero, the larger one on a tie
(ECMAScript `Number.prototype.toFixed`; a negative `x` is negated first). -/
def toFixed2 (x : ℚ) : ℤ :=
  if x < 0 then -⌊(-x) * 100 + 1 / 2⌋ else ⌊x * 100 + 1 / 2⌋

/-- The JSON value of the field `successRate`: the number `0`, or the string
produced by `toFixed(2)`, kept as its number of hundredths. -/
inductive SuccessRate
  | number (q : ℚ)
  | fixed2 (hundredths : ℤ)
  deriving DecidableEq, Repr

/-- The number a `successRate` value denotes. -/
def SuccessRate.value : SuccessRate → ℚ
  | SuccessRate.number q => q
  | SuccessRate.fixed2 n => (n : ℚ) / 100

/-! ## The handler `router.get('/stats')` -/

/-- Sequelize `ScanHistory.count({ where: { scanType } })`. -/
def countType (scans : List ScanHistory) (t : ScanType) : Nat :=
  (scans.filter (fun r => r.scanType == t)).length

/-- Body of the statistics response (scan.js lines 201-207). -/
structure StatsBody where
  totalScans : Nat
  todayScans : Nat
  successScans : Nat
  failedScans : Nat
  successRate : SuccessRate
  deriving DecidableEq, Repr

/-- The expression `totalScans > 0 ? ((successScans / totalScans) * 100).toFixed(2) : 0`
(scan.js line 206). -/
def successRate (fl : ℚ → ℚ) (successScans totalScans : Nat) : SuccessRate :=
  if totalScans > 0 then
    SuccessRate.fixed2 (toFixed2 (fl (fl ((successScans : ℚ) / (totalScans : ℚ)) * 100)))
  else
    SuccessRate.number 0

/-- The handler `router.get('/stats', ...)`, lines 183-212.  `today` is the
timestamp of local midnight (`today.setHours(0, 0, 0, 0)`).  The handler issues
four `count` queries; the database it leaves behind is the first component. -/
def stats (fl : ℚ → ℚ) (today : Nat) (db : Db) : Db × StatsBody :=
  let totalScans := db.scans.length
  let todayScans := (db.scans.filter (fun r => decide (today ≤ r.scannedAt))).length
  let successScans := countType db.scans ScanType.success
  let failedScans := countType db.scans ScanType.failed
  (db,
    { totalScans := totalScans
      todayScans := todayScans
      successScans := successScans
      failedScans := failedScans
      successRate := successRate fl successScans totalScans })

/-! ## The handler `router.get('/history')` -/

/-- The query string of `GET /history`.  `page` and `limit` are the decimal
integers given (`none` when the parameter is left out), `type` the raw string. -/
structure HistoryQuery where
  page : Option Nat
  limit : Option Nat
  type : Option String
  deriving DecidableEq, Repr

/-- The test `type && ['success', 'failed', 'unknown'].includes(type)`
(scan.js line 154): the filter that goes into the where clause, if any. -/
def typeFilter : Option String → Option ScanType
  | some "success" => some ScanType.success
  | some "failed" => some ScanType.failed
  | some "unknown" => some ScanType.unknown
  | _ => none

/-- The where clause of the history query applied to one row. -/
def matchesFilter (f : Option ScanType) (r : ScanHistory) : Bool :=
  match f with
  | some t => r.scanType == t
  | none => true

/-- A history row with the employee joined by `include` (`required: false`). -/
structure HistoryRow where
  scan : ScanHistory
  employee : Option Employee
  deriving DecidableEq, Repr

/-- Body of the history response (scan.js lines 170-175).  `totalPages` is
`none` for the JSON value `null`, which is how `res.json` renders a page count
that is `Infinity` or `NaN`; `currentPage` is the double `parseInt(page)`. -/
structure HistoryBody where
  scans : List HistoryRow
  totalCount : Nat
  totalPages : Option ℤ
  currentPage : ℚ
  deriving DecidableEq, Repr

/-- The response of the history: the body sent with status 200, or the `error`
field of the body sent with status 500 from the `catch` block (line 178). -/
inductive HistoryResponse
  | ok (body : HistoryBody)
  | error (error : String)
  deriving DecidableEq, Repr

/-- What the history handler depends on beyond the query and the table.

* `fl` is the rounding of the doubles of the runtime.
* `expDigit x` is what `parseInt` returns for a number `x` of `1e21` or more:
  `parseInt` first turns the number into a string, which for such a number is
  in exponent notation (`1e+21`), and reads the digits in front of the first
  character that is not a digit, that is the one digit in front of the point
  or the `e`.
* `order limit offset rows` is the order in which the database returns `rows`
  for `ORDER BY scanned_at DESC LIMIT limit OFFSET offset`.  The clause names
  no second column, so the order of rows with the same timestamp is the
  database's choice, and it may choose differently for each statement.
* `outside q db` is the answer to a query with page 0 or page size 0.  There
  the statement carries a negative `OFFSET` or `LIMIT 0`, which SQL dialects and
  versions of Sequelize treat differently, and the dialect is configured
  outside the repository. -/
structure HistoryEnv where
  fl : ℚ → ℚ
  expDigit : ℚ → Nat
  order : Nat → Nat → List ScanHistory → List ScanHistory
  outside : HistoryQuery → Db → HistoryResponse

/-- What `ORDER BY scanned_at DESC` guarantees of the order the database
chooses: the rows come back each once, newest first. -/
structure IsOrderByScannedAtDesc
    (order : Nat → Nat → List ScanHistory → List ScanHistory) : Prop where
  perm : ∀ limit offset rows, (order limit offset rows).Perm rows
  sorted : ∀ limit offset rows,
    (order limit offset rows).Pairwise (fun a b => b.scannedAt ≤ a.scannedAt)

/-- One order a database may choose: a stable sort of the table, so that rows
with equal timestamps keep their insertion order. -/
def orderByScannedAtDesc (rows : List ScanHistory) : List ScanHistory :=
  rows.insertionSort (fun a b => b.scannedAt ≤ a.scannedAt)

/-- Another order a database may choose: among rows with equal timestamps the
one inserted last comes first. -/
def orderByScannedAtDescNewestFirst (rows : List ScanHistory) : List ScanHistory :=
  rows.reverse.insertionSort (fun a b => b.scannedAt ≤ a.scannedAt)

/-- The number `offset = (page - 1) * limit` of line 151.  `page` and `limit`
are strings of digits; the subtraction and the multiplication convert them to
doubles, and each operation rounds. -/
def offsetNumber (fl : ℚ → ℚ) (page limit : Nat) : ℚ :=
  fl (fl (fl (page : ℚ) - 1) * fl (limit : ℚ))

/-- The call `parseInt(offset)` of line 167 on a number `x`.  `parseInt` reads
the string of `x`.  Below `1e21` that string is the decimal expansion of `x`,
and `parseInt` returns its integer part; from `1e21` on it is in exponent
notation and `parseInt` returns the digit in front.  `x` is the double of a
product of two non-negative integers, so it is a non-negative integer. -/
def parseIntOfNumber (expDigit : ℚ → Nat) (x : ℚ) : Nat :=
  if x < 10 ^ 21 then ⌊x⌋.toNat else expDigit x

/-- The handler `router.get('/history', ...)`, lines 148-180.  The database it
leaves behind is the first component.

For a page number and a page size of at least 1 the handler asks for `limit`
rows from the offset `parseInt((page - 1) * limit)` on.  `count` is the number
of rows the where clause selects, whatever the page.  The page size and the
count are taken to be below `2 ^ 53`, where `parseInt(limit)` is the integer
written; the page number is taken to be finite as a double; the database is
taken to accept every non-negative integer as `OFFSET`. -/
def history (env : HistoryEnv) (q : HistoryQuery) (db : Db) : Db × HistoryResponse :=
  let page := q.page.getD 1
  let limit := q.limit.getD 50
  if page = 0 ∨ limit = 0 then (db, env.outside q db)
  else
    let offset := parseIntOfNumber env.expDigit (offsetNumber env.fl page limit)
    let selected := db.scans.filter (matchesFilter (typeFilter q.type))
    let rows := ((env.order limit offset selected).drop offset).take limit
    let count := selected.length
    (db, HistoryResponse.ok
      { scans := rows.map (fun r =>
          { scan := r, employee := r.employeeId.bind (findByPk db.employees) })
        totalCount := count
        totalPages := some ⌈env.fl ((count : ℚ) / (limit : ℚ))⌉
        currentPage := env.fl (page : ℚ) })

/-! ## The handler `router.delete('/history')` -/

/-- The query string of `DELETE /history`.  `olderThan = none` stands for a
parameter that is left out or empty (the test `else if (olderThan)` fails),
`some none` for a non-empty parameter whose `parseInt` is `NaN`, and
`some (some h)` for one whose `parseInt` is the integer `h`; `allFailed` is the
raw string. -/
structure PurgeQuery where
  olderThan : Option (Option ℤ)
  allFailed : Option String
  deriving DecidableEq, Repr

/-- The time zone of the server process, as the two offsets that ECMA-262 uses
to go between time values (milliseconds since the epoch, UTC) and local time
values.  `offsetAtUtc t` is `LocalTZA(t, true)`: local time minus UTC at the
instant `t`.  `offsetAtLocal t` is `LocalTZA(t, false)`: the same difference
for the wall-clock reading `t`.  In a zone with daylight saving the two change
with `t`. -/
structure TimeZone where
  offsetAtUtc : ℤ → ℤ
  offsetAtLocal : ℤ → ℤ

/-- The largest magnitude of a time value that `TimeClip` lets through
(ECMA-262): 8.64e15 ms.  Beyond it a `Date` is an Invalid Date. -/
def maxTimeValue : ℤ := 8640000000000000

/-- The date `cutoffDate` after `cutoffDate.setHours(cutoffDate.getHours() - hours)`
(scan.js lines 228-229 and 235-236), where `hours` is the value of `parseInt`
(`none` for `NaN`); the result is a time value, or `none` for an Invalid Date.

`setHours` works on the wall clock: it takes the local time of `now`
(`LocalTime`), replaces the hour field by `getHours() - hours`, which moves
the local reading back by `hours` times 3 600 000 ms (`MakeTime`, `MakeDate`),
converts the reading back (`UTC`) and clips it (`TimeClip`).  With `NaN` the
date is invalid.  For clock readings of this era every intermediate value that
leads to a valid date is an integer below `2 ^ 53`, so the double arithmetic of
these steps is exact. -/
def cutoffDate (tz : TimeZone) (now : Nat) (hours : Option ℤ) : Option ℤ :=
  match hours with
  | none => none
  | some h =>
    let localNow := (now : ℤ) + tz.offsetAtUtc (now : ℤ)
    let moved := localNow - h * 3600000
    let utc := moved - tz.offsetAtLocal moved
    if |utc| ≤ maxTimeValue then some utc else none

/-- What the purge handler depends on beyond the query and the table: the time
zone and the clock of the server process, and what the storage layer makes of
the condition `scanned_at < cutoffDate` when `cutoffDate` is an Invalid Date.
That last point differs between SQL dialects, and the dialect is configured
outside the repository: `invalidDate = some f` is a database that evaluates the
condition to `f r` on row `r` (SQLite compares with the text `Invalid date`
and finds it true of every row), `invalidDate = none` one that rejects the
statement. -/
structure PurgeEnv where
  tz : TimeZone
  now : Nat
  invalidDate : Option (ScanHistory → Bool)

/-- The condition `scannedAt: { [Op.lt]: cutoffDate }` as the database
evaluates it on a row, `none` when the database rejects the statement. -/
def scannedBefore (env : PurgeEnv) (hours : Option ℤ) : Option (ScanHistory → Bool) :=
  match cutoffDate env.tz env.now hours with
  | some cutoff => some (fun r => decide ((r.scannedAt : ℤ) < cutoff))
  | none => env.invalidDate

/-- The where clause built at lines 219-243, as the database evaluates it on a
row; `none` when the database rejects the statement. -/
def purgeWhere (q : PurgeQuery) (env : PurgeEnv) : Option (ScanHistory → Bool) :=
  if q.allFailed = some "true" then
    some (fun r => r.scanType == ScanType.failed)
  else
    match q.olderThan with
    | some hours => scannedBefore env hours
    | none =>
      (scannedBefore env (some 24)).map (fun before r =>
        r.scanType == ScanType.failed && before r)

/-- Body of the purge response (scan.js lines 251-255). -/
structure PurgeBody where
  success : Bool
  deletedCount : Nat
  message : String
  deriving DecidableEq, Repr

/-- The response of the purge: the body sent with status 200, or the `error`
field of the body sent with status 500 from the `catch` block (line 258). -/
inductive PurgeResponse
  | ok (body : PurgeBody)
  | error (error : String)
  deriving DecidableEq, Repr

/-- The field `deletedCount` of the response, if the purge went through. -/
def PurgeResponse.deletedCount : PurgeResponse → Option Nat
  | PurgeResponse.ok body => some body.deletedCount
  | PurgeResponse.error _ => none

/-- The handler `router.delete('/history', ...)`, lines 215-260:
`ScanHistory.destroy({ where })` removes the rows the where clause selects and
returns how many it removed; a statement the database rejects throws, and the
`catch` block answers with status 500, the table being left as it was. -/
def clearHistory (q : PurgeQuery) (env : PurgeEnv) (db : Db) : Db × PurgeResponse :=
  match purgeWhere q env with
  | some selected =>
    let deletedCount := (db.scans.filter selected).length
    ({ db with scans := db.scans.filter (fun r => !selected r) },
      PurgeResponse.ok
        { success := true
          deletedCount := deletedCount
          message := "Successfully cleared " ++ toString deletedCount ++ " old scan records" })
  | none => (db, PurgeResponse.error "Failed to clear scan history")

/-! ## The handlers of `routes/employees.js` -/

/-- Errors raised by a Sequelize call.  The handlers only log them. -/
inductive DbError
  | invalidWhere
  | notNullViolation
  | uniqueViolation
  deriving DecidableEq, Repr

/-- The text fields of the multipart body of `POST /employees`; a field that is
not sent is `undefined`. -/
structure EmployeeBody where
  employeeId : Option String
  name : Option String
  specialty : Option String
  city : Option String
  birthDate : Option String
  deriving DecidableEq, Repr

/-- The parts of the request that `POST /employees` reads. -/
structure EnrollRequest where
  body : EmployeeBody
  file : Option UploadedFile
  deriving DecidableEq, Repr

/-- The fields read from the reply of the oracle's `/encode`. -/
structure EncodeData where
  success : Bool
  face_encoding : Option String
  deriving DecidableEq, Repr

/-- Everything outside the handler that one enrollment depends on. -/
structure EnrollEnv where
  /-- Outcome of `await axios.post(.../encode)`. -/
  encode : Except String EncodeData
  /-- Whether the storage layer rejects the INSERT on the unique index of
  `employee_id` although the pre-check found no row (a concurrent enrollment
  committed the same identity code in between). -/
  insertConflict : Bool
  /-- Clock reading when the row is created. -/
  now : Nat

/-- Sequelize `Employee.findOne({ where: { employeeId } })`.  A where value of
`undefined` is rejected by the query generator. -/
def findOneByEmployeeId (employees : List Employee) (employeeId : Option String) :
    Except DbError (Option Employee) :=
  match employeeId with
  | none => Except.error DbError.invalidWhere
  | some code => Except.ok (employees.find? (fun e => e.employeeId == code))

/-- The object literal handed to `Employee.create` (employees.js lines 120-128). -/
structure EmployeeValues where
  employeeId : Option String
  name : Option String
  specialty : Option String
  city : Option String
  birthDate : Option String
  imagePath : Option String
  faceEncoding : Option String
  deriving DecidableEq, Repr

/-- Sequelize `Employee.create(values)`.  The five `allowNull: false` columns
must be present; `employee_id` is unique.  `conflict` is the storage layer
reporting a unique violation that the table as read by this request does not
show.  On success the row gets the next auto-increment id, `isActive` true and
both timestamps.  `birthDate` is taken to be a calendar date written the way
the `DATEONLY` column stores it (`YYYY-MM-DD`), so that the row stored is the
row returned; what the column makes of any other string is not modelled. -/
def Employee.create (db : Db) (v : EmployeeValues) (conflict : Bool) (now : Nat) :
    Except DbError (Db × Employee) :=
  match v.employeeId, v.name, v.specialty, v.city, v.birthDate with
  | some employeeId, some name, some specialty, some city, some birthDate =>
    if conflict || db.employees.any (fun e => e.employeeId == employeeId) then
      Except.error DbError.uniqueViolation
    else
      let row : Employee :=
        { id := db.nextEmployeeId
          employeeId := employeeId
          name := name
          specialty := specialty
          city := city
          birthDate := birthDate
          imagePath := v.imagePath
          faceEncoding := v.faceEncoding
          isActive := true
          createdAt := now
          updatedAt := now }
      Except.ok
        ({ db with employees := db.employees ++ [row],
                   nextEmployeeId := db.nextEmployeeId + 1 }, row)
  | _, _, _, _, _ => Except.error DbError.notNullViolation

/-- JSON bodies sent by the employee handlers. -/
inductive EmployeeBodyOut
  | error (error : String)
  | employee (e : Employee)
  | message (message : String)
  deriving DecidableEq, Repr

/-- What one run of an employee handler leaves behind. -/
structure EmployeeOutcome where
  db : Db
  oracleCalls : Nat
  status : Nat
  body : EmployeeBodyOut
  deriving DecidableEq, Repr

/-- Lines 78-116: the face encoding to store and the number of oracle calls. -/
def encodePhoto (req : EnrollRequest) (env : EnrollEnv) : Option String × Nat :=
  match req.file with
  | none => (none, 0)
  | some _ =>
    match env.encode with
    | Except.ok data =>
      (if data.success && truthyStr data.face_encoding then data.face_encoding else none, 1)
    | Except.error _ => (none, 1)

/-- The handler `router.post('/', ...)` of employees.js, lines 65-136. -/
def createEmployee (req : EnrollRequest) (env : EnrollEnv) (db : Db) : EmployeeOutcome :=
  match findOneByEmployeeId db.employees req.body.employeeId with
  | Except.error _ =>
    { db := db, oracleCalls := 0, status := 500
      body := EmployeeBodyOut.error "Failed to create employee" }
  | Except.ok (some _) =>
    { db := db, oracleCalls := 0, status := 400
      body := EmployeeBodyOut.error "Employee ID already exists" }
  | Except.ok none =>
    match encodePhoto req env with
    | (faceEncoding, calls) =>
      match Employee.create db
          { employeeId := req.body.employeeId
            name := req.body.name
            specialty := req.body.specialty
            city := req.body.city
            birthDate := req.body.birthDate
            imagePath := req.file.map (fun f => "employees/" ++ f.filename)
            faceEncoding := faceEncoding } env.insertConflict env.now with
      | Except.ok (db1, employee) =>
        { db := db1, oracleCalls := calls, status := 201
          body := EmployeeBodyOut.employee employee }
      | Except.error _ =>
        { db := db, oracleCalls := calls, status := 500
          body := EmployeeBodyOut.error "Failed to create employee" }

/-- The handler `router.delete('/:id', ...)` of employees.js, lines 200-227.
`employee.destroy()` deletes the row; the foreign key of `scan_history` is
declared `ON DELETE SET NULL`, so the rows that reference it lose the
reference and stay. -/
def deleteEmployee (id : Nat) (db : Db) : EmployeeOutcome :=
  match findByPk db.employees id with
  | none =>
    { db := db, oracleCalls := 0, status := 404
      body := EmployeeBodyOut.error "Employee not found" }
  | some employee =>
    { db :=
        { db with
          employees := db.employees.filter (fun e => e.id != employee.id)
          scans := db.scans.map (fun r =>
            if r.employeeId = some employee.id then { r with employeeId := none } else r) }
      oracleCalls := 0
      status := 200
      body := EmployeeBodyOut.message "Employee permanently deleted successfully" }

/-- The selection of `Purge(mode)` as the specification words it, in elapsed
time: `allFailed` selects every non-matched row regardless of age,
`olderThan(h)` selects every row older than `h` hours regardless of outcome,
and with neither given the non-matched rows older than 24 hours are selected.
The specification has no words for an `olderThan` that is not a number. -/
def purgeSelectsSpec (q : PurgeQuery) (now : Nat) (r : ScanHistory) : Prop :=
  if q.allFailed = some "true" then
    r.scanType ≠ ScanType.success
  else
    match q.olderThan with
    | some (some hours) => (r.scannedAt : ℤ) + hours * 3600000 < (now : ℤ)
    | some none => False
    | none => r.scanType ≠ ScanType.success ∧ (r.scannedAt : ℤ) + 24 * 3600000 < (now : ℤ)

/-! ## Sequences of operations on the scan history -/

/-- The operations of the server that write to `scan_history`. -/
inductive Op
  | recognize (req : Request) (env : Env)
  | clearHistory (q : PurgeQuery) (env : PurgeEnv)
  | deleteEmployee (id : Nat)

/-- The database after one operation. -/
def step (db : Db) : Op → Db
  | Op.recognize req env => (recognize req env db).db
  | Op.clearHistory q env => (clearHistory q env db).1
  | Op.deleteEmployee id => (deleteEmployee id db).db

/-- The database after a sequence of operations. -/
def run (db : Db) (ops : List Op) : Db :=
  ops.foldl step db

/-- A row carries a subject reference only if its kind is `success`. -/
def RefOnlyOnSuccess (scans : List ScanHistory) : Prop :=
  ∀ r ∈ scans, r.employeeId ≠ none → r.scanType = ScanType.success

/-! ## Updating employees -/

/-- The text fields of the multipart body of `PUT /employees/:id`. -/
structure UpdateBody where
  name : Option String
  specialty : Option String
  city : Option String
  birthDate : Option String
  deriving DecidableEq, Repr

/-- The parts of the request that `PUT /employees/:id` reads. -/
structure UpdateRequest where
  id : Nat
  body : UpdateBody
  file : Option UploadedFile
  deriving DecidableEq, Repr

/-- The object literal handed to `employee.update`.  `none` stands for a key
that is absent or whose value is `undefined`; for `faceEncoding`, `some none`
is the value `null`. -/
structure UpdateValues where
  name : Option String := none
  specialty : Option String := none
  city : Option String := none
  birthDate : Option String := none
  imagePath : Option String := none
  faceEncoding : Option (Option String) := none
  deriving DecidableEq, Repr

/-- The effect of Sequelize `employee.update(values)` on the row `x`: keys with
an `undefined` value are ignored, the others are set; when a column changes the
row is written with `updatedAt` set to the current time, otherwise nothing is
written.  No handler passes `id` or `employeeId`. -/
def applyUpdate (v : UpdateValues) (now : Nat) (x : Employee) : Employee :=
  let y : Employee :=
    { x with
      name := v.name.getD x.name
      specialty := v.specialty.getD x.specialty
      city := v.city.getD x.city
      birthDate := v.birthDate.getD x.birthDate
      imagePath := match v.imagePath with
        | some path => some path
        | none => x.imagePath
      faceEncoding := v.faceEncoding.getD x.faceEncoding }
  if y = x then x else { y with updatedAt := now }

/-- Sequelize `employee.update(values)`: the row with the primary key of
`employee` is updated in the table; the updated instance is returned. -/
def Employee.update (db : Db) (employee : Employee) (v : UpdateValues) (now : Nat) :
    Db × Employee :=
  ({ db with employees := db.employees.map (fun x =>
      if x.id = employee.id then applyUpdate v now x else x) },
    applyUpdate v now employee)

/-- Lines 148-180 of employees.js: the face encoding to store on update and the
number of oracle calls.  The previous encoding is kept unless the oracle returns
a new one. -/
def reencodePhoto (file : Option UploadedFile) (env : EnrollEnv) (employee : Employee) :
    Option String × Nat :=
  match file with
  | none => (employee.faceEncoding, 0)
  | some _ =>
    match env.encode with
    | Except.ok data =>
      (if data.success && truthyStr data.face_encoding then data.face_encoding
        else employee.faceEncoding, 1)
    | Except.error _ => (employee.faceEncoding, 1)

/-- The handler `router.put('/:id', ...)` of employees.js, lines 139-197. -/
def updateEmployee (req : UpdateRequest) (env : EnrollEnv) (db : Db) : EmployeeOutcome :=
  match findByPk db.employees req.id with
  | none =>
    { db := db, oracleCalls := 0, status := 404
      body := EmployeeBodyOut.error "Employee not found" }
  | some employee =>
    match reencodePhoto req.file env employee with
    | (faceEncoding, calls) =>
      match Employee.update db employee
          { name := req.body.name
            specialty := req.body.specialty
            city := req.body.city
            birthDate := req.body.birthDate
            imagePath := req.file.map (fun f => "employees/" ++ f.filename)
            faceEncoding := some faceEncoding } env.now with
      | (db1, updated) =>
        { db := db1, oracleCalls := calls, status := 200
          body := EmployeeBodyOut.employee updated }

/-- The handler `router.post('/:id/face-encoding', ...)` of employees.js, lines
230-245.  `faceEncoding` is the field of the JSON body: `none` when it is not
sent, `some none` for `null`. -/
def updateFaceEncoding (id : Nat) (faceEncoding : Option (Option String)) (now : Nat)
    (db : Db) : EmployeeOutcome :=
  match findByPk db.employees id with
  | none =>
    { db := db, oracleCalls := 0, status := 404
      body := EmployeeBodyOut.error "Employee not found" }
  | some employee =>
    { db := (Employee.update db employee { faceEncoding := faceEncoding } now).1
      oracleCalls := 0
      status := 200
      body := EmployeeBodyOut.message "Face encoding updated successfully" }

/-! ## Sequences of operations on the registry -/

/-- The operations of the server that write to `employees`. -/
inductive RegistryOp
  | create (req : EnrollRequest) (env : EnrollEnv)
  | update (req : UpdateRequest) (env : EnrollEnv)
  | faceEncoding (id : Nat) (value : Option (Option String)) (now : Nat)
  | delete (id : Nat)

/-- The database after one registry operation. -/
def registryStep (db : Db) : RegistryOp → Db
  | RegistryOp.create req env => (createEmployee req env db).db
  | RegistryOp.update req env => (updateEmployee req env db).db
  | RegistryOp.faceEncoding id value now => (updateFaceEncoding id value now db).db
  | RegistryOp.delete id => (deleteEmployee id db).db

/-- The database after a sequence of registry operations. -/
def registryRun (db : Db) (ops : List RegistryOp) : Db :=
  ops.foldl registryStep db

/-- A registry as the storage layer keeps it: identity codes are unique, primary
keys are unique, and every key is below the auto-increment counter. -/
def RegistryOk (db : Db) : Prop :=
  (db.employees.map (fun e => e.employeeId)).Nodup
    ∧ (db.employees.map (fun e => e.id)).Nodup
    ∧ ∀ e ∈ db.employees, e.id < db.nextEmployeeId

/-- No row of the history has kind `unknown`. -/
def NoUnknown (scans : List ScanHistory) : Prop :=
  ∀ r ∈ scans, r.scanType ≠ ScanType.unknown

/-! ## Deleting from the admin dashboard -/

/-- A `DELETE /employees/:id` request as it reaches the server: the path
parameter, and a confirmation token the caller may attach to it.  The handler
reads `req.params.id` and nothing else. -/
structure DeleteRequest where
  id : Nat
  confirmationToken : Option String
  deriving DecidableEq, Repr

/-- The server's answer to a `DELETE /employees/:id` request. -/
def deleteRoute (req : DeleteRequest) (db : Db) : EmployeeOutcome :=
  deleteEmployee req.id db

/-- The operator's answers to the two dialogs of `handleDeleteEmployee`:
the result of `confirm(...)` and the text returned by `prompt(...)` (`none`
when the prompt is dismissed). -/
structure DeleteDialog where
  confirmed : Bool
  typed : Option String
  deriving DecidableEq, Repr

/-- What one run of a dashboard action leaves behind. -/
structure ClientOutcome where
  db : Db
  requestsSent : Nat
  deriving DecidableEq, Repr

/-- The dashboard action `handleDeleteEmployee` (admin-dashboard.tsx, lines
162-188): the DELETE request is sent only after `confirm` was accepted and the
text typed into the prompt is exactly `DELETE`. -/
def handleDeleteEmployee (dialog : DeleteDialog) (id : Nat) (db : Db) : ClientOutcome :=
  if dialog.confirmed then
    if dialog.typed = some "DELETE" then
      { db := (deleteRoute { id := id, confirmationToken := none } db).db
        requestsSent := 1 }
    else
      { db := db, requestsSent := 0 }
  else
    { db := db, requestsSent := 0 }

/-! ## Comparing registries and responses up to the active flag -/

/-- The registry with the `is_active` flag of the subject with key `id` set
to `b`; nothing else differs. -/
def setActive (id : Nat) (b : Bool) (db : Db) : Db :=
  { db with employees := db.employees.map (fun e =>
      if e.id = id then { e with isActive := b } else e) }

/-- An employee record with its `isActive` field blanked. -/
def Employee.forgetActive (e : Employee) : Employee :=
  { e with isActive := true }

/-- A response with the `isActive` field of the employee it embeds blanked. -/
def Response.forgetActive (r : Response) : Response :=
  match r.body with
  | Body.result b =>
    { r with body := Body.result { b with employee := b.employee.map Employee.forgetActive } }
  | Body.error _ _ => r

/-! ## Pages of the history -/

/-- The scan rows of page `p` for page size `n` (no rows when the handler
answers with an error). -/
def pageScans (env : HistoryEnv) (type : Option String) (n p : Nat) (db : Db) :
    List ScanHistory :=
  match (history env { page := some p, limit := some n, type := type } db).2 with
  | HistoryResponse.ok body => body.scans.map (fun row => row.scan)
  | HistoryResponse.error _ => []

/-! ## Concrete inputs for the evaluations below -/

/-- A scan request carrying an image. -/
def scanRequest : Request :=
  { file := some { path := "uploads/scans/scan-1.jpg", filename := "scan-1.jpg" }
    ip := some "10.0.0.7"
    remoteAddress := none
    userAgent := some "kiosk"
    location := none }

/-- A request without an image. -/
def emptyRequest : Request :=
  { file := none
    ip := some "10.0.0.7"
    remoteAddress := none
    userAgent := some "kiosk"
    location := none }

/-- The first demo employee of the seeder. -/
def johnDoe : Employee :=
  { id := 1
    employeeId := "EMP001"
    name := "John Doe"
    specialty := "Software Engineer"
    city := "New York"
    birthDate := "1990-05-15"
    imagePath := none
    faceEncoding := none
    isActive := true
    createdAt := 10
    updatedAt := 10 }

/-- A database holding one employee and no scan. -/
def demoDb : Db :=
  { employees := [johnDoe], scans := [], nextEmployeeId := 2, nextScanId := 1 }

/-- An environment with a registered socket server whose `emit` returns. -/
def envWith (oracle : Except String RecognizeData) : Env :=
  { oracle := oracle, io := some Emitter.returns, now := 100, emitNow := 101, catchNow := 102 }

/-- The oracle reports a match but gives no employee id. -/
def envMatchNoId : Env :=
  envWith (Except.ok { recognized := true, employeeId := none, confidence := none })

/-- The oracle call times out. -/
def envTimeout : Env :=
  envWith (Except.error "timeout of 30000ms exceeded")

/-- The oracle reports no match and no confidence. -/
def envNoMatch : Env :=
  envWith (Except.ok { recognized := false, employeeId := none, confidence := none })

/-- The oracle reports a match to id 42, which is not in `demoDb`. -/
def envStaleId : Env :=
  envWith (Except.ok { recognized := true, employeeId := some 42, confidence := some (9 / 10) })

/-- The oracle reports a match to id 1, which is `johnDoe` in `demoDb`. -/
def envMatch : Env :=
  envWith (Except.ok { recognized := true, employeeId := some 1, confidence := some (93 / 100) })

/-- As `envMatch`, but `io.emit` throws. -/
def envMatchEmitThrows : Env :=
  { envMatch with io := some (Emitter.throws "emit failed") }

/-- A matched scan recorded when the clock read 0. -/
def oldSuccessRow : ScanHistory :=
  { id := 1, employeeId := some 1, scanType := ScanType.success, confidence := some 1,
    imagePath := some "uploads/scans/scan-1.jpg", ipAddress := some "10.0.0.7",
    userAgent := some "kiosk", location := none, notes := none, scannedAt := 0 }

/-- A failed scan recorded when the clock read 0. -/
def oldFailedRow : ScanHistory :=
  { id := 2, employeeId := none, scanType := ScanType.failed, confidence := some 0,
    imagePath := some "uploads/scans/scan-2.jpg", ipAddress := some "10.0.0.7",
    userAgent := some "kiosk", location := none, notes := some "Face not recognized",
    scannedAt := 0 }

/-- A failed scan recorded at 170 000 000 ms. -/
def recentFailedRow : ScanHistory :=
  { id := 3, employeeId := none, scanType := ScanType.failed, confidence := some 0,
    imagePath := some "uploads/scans/scan-3.jpg", ipAddress := some "10.0.0.7",
    userAgent := some "kiosk", location := none, notes := some "Face not recognized",
    scannedAt := 170000000 }

/-- A database with one matched and two failed scans. -/
def historyDb : Db :=
  { employees := [johnDoe], scans := [oldSuccessRow, oldFailedRow, recentFailedRow],
    nextEmployeeId := 2, nextScanId := 4 }

/-- The clock reading used for the purge evaluations: 48 hours after 0. -/
def purgeNow : Nat := 172800000

/-- A server whose local time is UTC. -/
def utcZone : TimeZone :=
  { offsetAtUtc := fun _ => 0, offsetAtLocal := fun _ => 0 }

/-- A server on UTC whose clock reads `purgeNow`, with SQLite as the database. -/
def purgeEnv : PurgeEnv :=
  { tz := utcZone, now := purgeNow, invalidDate := some (fun _ => true) }

/-- Purge of everything older than one hour. -/
def purgeOlderThanOne : PurgeQuery := { olderThan := some (some 1), allFailed := none }

/-- Purge of all failed scans. -/
def purgeAllFailed : PurgeQuery := { olderThan := none, allFailed := some "true" }

/-- Purge with no parameter. -/
def purgeDefault : PurgeQuery := { olderThan := none, allFailed := none }

/-- Purge with `olderThan=99999999999999`. -/
def purgeOlderThanHuge : PurgeQuery :=
  { olderThan := some (some 99999999999999), allFailed := none }

/-- The zone America/New_York around 10 March 2024.  At 07:00 UTC of that day
(the instant 1 710 054 000 000) the clocks go from 02:00 EST, five hours behind
UTC, to 03:00 EDT, four hours behind.  Wall-clock readings before 03:00 of
that day are readings in EST. -/
def newYorkSpring2024 : TimeZone :=
  { offsetAtUtc := fun t => if t < 1710054000000 then -18000000 else -14400000
    offsetAtLocal := fun t => if t < 1710039600000 then -18000000 else -14400000 }

/-- A server in New York whose clock reads 12:00 EDT on 10 March 2024
(16:00 UTC), with SQLite as the database. -/
def dstEnv : PurgeEnv :=
  { tz := newYorkSpring2024, now := 1710086400000, invalidDate := some (fun _ => true) }

/-- A failed scan recorded at 11:30 EST on 9 March 2024 (16:30 UTC), 23 hours
and 30 minutes before the clock reading of `dstEnv`. -/
def dstFailedRow : ScanHistory :=
  { id := 1, employeeId := none, scanType := ScanType.failed, confidence := some 0,
    imagePath := some "uploads/scans/scan-1.jpg", ipAddress := some "10.0.0.7",
    userAgent := some "kiosk", location := none, notes := some "Face not recognized",
    scannedAt := 1710001800000 }

/-- A database whose scan history is `dstFailedRow`. -/
def dstDb : Db :=
  { employees := [johnDoe], scans := [dstFailedRow], nextEmployeeId := 2, nextScanId := 2 }

/-- An enrollment that reuses the identity code of `johnDoe`. -/
def enrollDuplicate : EnrollRequest :=
  { body := { employeeId := some "EMP001", name := some "Jon Dough",
              specialty := some "Tester", city := some "Boston",
              birthDate := some "1991-01-01" }
    file := none }

/-- An enrollment with a fresh identity code. -/
def enrollFresh : EnrollRequest :=
  { body := { employeeId := some "EMP007", name := some "Ada Byron",
              specialty := some "Analyst", city := some "London",
              birthDate := some "1985-12-10" }
    file := none }

/-- An enrollment environment in which the insert goes through. -/
def enrollEnvOk : EnrollEnv :=
  { encode := Except.error "not called", insertConflict := false, now := 500 }

/-- An enrollment environment in which the storage layer rejects the insert
on the unique index. -/
def enrollEnvRace : EnrollEnv :=
  { encode := Except.error "not called", insertConflict := true, now := 500 }

/-- The first page of 20 of the failed scans. -/
def historyQueryFailed : HistoryQuery :=
  { page := some 1, limit := some 20, type := some "failed" }

/-- A runtime whose doubles are exact on the values at hand, with a database
that breaks ties by insertion order and answers page 0 and page size 0 with an
error. -/
def historyEnv : HistoryEnv :=
  { fl := id
    expDigit := fun _ => 1
    order := fun _ _ => orderByScannedAtDesc
    outside := fun _ _ => HistoryResponse.error "Failed to fetch scan history" }

/-- As `historyEnv`, with a database that returns the row inserted last first
among rows with equal timestamps. -/
def historyEnvNewestFirst : HistoryEnv :=
  { historyEnv with order := fun _ _ => orderByScannedAtDescNewestFirst }

/-- Page `10 ^ 21 + 1` of size 1, without a filter. -/
def historyQueryHugePage : HistoryQuery :=
  { page := some (10 ^ 21 + 1), limit := some 1, type := none }

/-- Rounding to the nearest double on the values that page `10 ^ 21 + 1`
brings up: doubles next to `10 ^ 21` are 131 072 apart, so `10 ^ 21 + 1` and
`10 ^ 21 - 1` round to `10 ^ 21`; the other values at hand are doubles. -/
def roundNear1e21 (x : ℚ) : ℚ :=
  if x = 10 ^ 21 + 1 ∨ x = 10 ^ 21 - 1 then 10 ^ 21 else x

/-- As `historyEnv`, with the rounding `roundNear1e21`. -/
def historyEnvHugePage : HistoryEnv :=
  { historyEnv with fl := roundNear1e21 }

/-- The second demo employee of the seeder, after a photo was enrolled. -/
def janeSmith : Employee :=
  { id := 2
    employeeId := "EMP002"
    name := "Jane Smith"
    specialty := "Data Analyst"
    city := "Los Angeles"
    birthDate := "1988-12-03"
    imagePath := some "employees/employee-1.jpg"
    faceEncoding := some "[0.12, -0.07]"
    isActive := true
    createdAt := 10
    updatedAt := 10 }

/-- A database holding two employees and the three scans of `historyDb`. -/
def staffDb : Db :=
  { employees := [johnDoe, janeSmith], scans := [oldSuccessRow, oldFailedRow, recentFailedRow],
    nextEmployeeId := 3, nextScanId := 4 }

/-- A photo uploaded with an enrollment or an update. -/
def newPhoto : UploadedFile :=
  { path := "uploads/employees/employee-9.jpg", filename := "employee-9.jpg" }

/-- An enrollment with a fresh identity code and a photo. -/
def enrollWithPhoto : EnrollRequest :=
  { enrollFresh with file := some newPhoto }

/-- An enrollment whose name is the empty string. -/
def enrollEmptyName : EnrollRequest :=
  { body := { employeeId := some "EMP008", name := some "",
              specialty := some "Analyst", city := some "London",
              birthDate := some "1985-12-10" }
    file := none }

/-- An enrollment with a photo and without the name field. -/
def enrollMissingName : EnrollRequest :=
  { body := { employeeId := some "EMP009", name := none,
              specialty := some "Analyst", city := some "London",
              birthDate := some "1985-12-10" }
    file := some newPhoto }

/-- An environment in which the oracle's encode call times out. -/
def enrollEnvEncodeFails : EnrollEnv :=
  { encode := Except.error "timeout of 30000ms exceeded", insertConflict := false, now := 500 }

/-- An environment in which the oracle finds no face. -/
def enrollEnvNoFace : EnrollEnv :=
  { encode := Except.ok { success := false, face_encoding := none },
    insertConflict := false, now := 500 }

/-- An update of `janeSmith` without a photo. -/
def updateNoPhoto : UpdateRequest :=
  { id := 2
    body := { name := some "Jane Smith-Lee", specialty := some "Data Analyst",
              city := some "San Diego", birthDate := some "1988-12-03" }
    file := none }

/-- An update of `janeSmith` with a new photo. -/
def updateWithPhoto : UpdateRequest :=
  { updateNoPhoto with file := some newPhoto }

/-! ## Auxiliary lemmas -/

theorem recognitionNote_ne (msg : String) :
    some ("Recognition error: " ++ msg) ≠ some "Face not recognized" := by
  intro h
  have h2 := congrArg String.data (Option.some.inj h)
  simp [String.data_append] at h2

theorem findByPk_isSome_iff (employees : List Employee) (id : Nat) :
    (∃ e, findByPk employees id = some e) ↔ ∃ e ∈ employees, e.id = id := by
  unfold findByPk
  constructor
  · rintro ⟨e, he⟩
    have h1 := List.find?_some he
    have h2 := List.mem_of_find?_eq_some he
    exact ⟨e, h2, by simpa using h1⟩
  · rintro ⟨e, he, hid⟩
    cases hfind : List.find? (fun e => e.id == id) employees with
    | some x => exact ⟨x, rfl⟩
    | none =>
      rw [List.find?_eq_none] at hfind
      have := hfind e he
      simp [hid] at this

theorem findByPk_some (employees : List Employee) (id : Nat) (e : Employee)
    (h : findByPk employees id = some e) : e ∈ employees ∧ e.id = id := by
  unfold findByPk at h
  exact ⟨List.mem_of_find?_eq_some h, by simpa using List.find?_some h⟩

theorem jsOrZero_eq (c : Option ℚ) : jsOrZero c = some (c.getD 0) := by
  rcases c with _ | q
  · simp [jsOrZero, truthyNum]
  · by_cases hq : q = 0 <;> simp [jsOrZero, truthyNum, hq]

/-- When `recordAttempt` leaves `scanResult` defined, that row was appended to the
table and carries the next auto-increment id. -/
theorem recordAttempt_some (req : Request) (env : Env) (db db1 : Db) (imagePath : String)
    (data : RecognizeData) (row : ScanHistory) (emp : Option Employee)
    (h : recordAttempt req env db imagePath data = (db1, some row, emp)) :
    db1 = { db with scans := db.scans ++ [row], nextScanId := db.nextScanId + 1 }
      ∧ row.id = db.nextScanId := by
  unfold recordAttempt at h
  split at h
  · split at h
    · simp only [ScanHistory.create, Prod.mk.injEq, Option.some.injEq] at h
      obtain ⟨h1, h2, -⟩ := h
      subst h2
      exact ⟨h1.symm, rfl⟩
    · simp at h
  · simp only [ScanHistory.create, Prod.mk.injEq, Option.some.injEq] at h
    obtain ⟨h1, h2, -⟩ := h
    subst h2
    exact ⟨h1.symm, rfl⟩

/-- The handler only appends to `scan_history`: the table afterwards is the
table before followed by `newRows`, and the registry is left as it was. -/
theorem recognize_appends (req : Request) (env : Env) (db : Db) :
    (recognize req env db).db.scans = db.scans ++ newRows req env db
      ∧ (recognize req env db).db.employees = db.employees := by
  rcases env with ⟨oracle, io, now, emitNow, catchNow⟩
  rcases hfile : req.file with _ | file
  · simp [newRows, recognize, tryBlock, hfile]
  rcases oracle with msg | ⟨recognized, employeeId, confidence⟩
  · simp [newRows, recognize, tryBlock, hfile, ScanHistory.create]
  rcases recognized with _ | _
  · rcases io with _ | _ | m <;>
      simp [newRows, recognize, tryBlock, hfile, recordAttempt, ScanHistory.create, respond]
  rcases employeeId with _ | id
  · rcases io with _ | _ | m <;>
      simp [newRows, recognize, tryBlock, hfile, recordAttempt, ScanHistory.create, respond,
        truthyId]
  by_cases hid : id = 0
  · rcases io with _ | _ | m <;>
      simp [newRows, recognize, tryBlock, hfile, recordAttempt, ScanHistory.create, respond,
        truthyId, hid]
  cases hfind : findByPk db.employees id with
  | none =>
    rcases io with _ | _ | m <;>
      simp [newRows, recognize, tryBlock, hfile, recordAttempt, ScanHistory.create, respond,
        truthyId, hid, hfind]
  | some e =>
    rcases io with _ | _ | m <;>
      simp [newRows, recognize, tryBlock, hfile, recordAttempt, ScanHistory.create, respond,
        truthyId, hid, hfind]

/-! ## The scan-history row count of one attempt -/

/-- C1 (evaluation at the failing input).  The oracle answers `recognized: true`
with `employeeId: null`.  The handler writes the `failed` row of the else branch,
then building the response dereferences `employee.name` on `null`, and the catch
block writes a second row: two rows for one attempt, and a 500 response. -/
theorem match_without_id_writes_two_rows :
    newRows scanRequest envMatchNoId demoDb =
        [ { id := 1, employeeId := none, scanType := ScanType.failed, confidence := some 0,
            imagePath := some "uploads/scans/scan-1.jpg", ipAddress := some "10.0.0.7",
            userAgent := some "kiosk", location := none, notes := some "Face not recognized",
            scannedAt := 100 },
          { id := 2, employeeId := none, scanType := ScanType.failed, confidence := none,
            imagePath := some "uploads/scans/scan-1.jpg", ipAddress := some "10.0.0.7",
            userAgent := some "kiosk", location := none,
            notes := some ("Recognition error: " ++ errReadNameOfNull), scannedAt := 102 } ]
      ∧ (recognize scanRequest envMatchNoId demoDb).response.status = 500 := by
  decide

/-! ## Oracle failure -/

/-- C2 (counterexample).  The row written when the oracle call times out and the
row written for a confident non-match have the same outcome kind, `failed`. -/
theorem oracle_failure_kind_equals_nonmatch_kind :
    (newRows scanRequest envTimeout demoDb).map (fun r => r.scanType) = [ScanType.failed]
      ∧ (newRows scanRequest envNoMatch demoDb).map (fun r => r.scanType)
          = [ScanType.failed] := by
  decide

/-- C2 (amended).  When the oracle call fails, exactly one row is written.  Its
kind is `failed`, it has no subject reference and no confidence, and its note is
`Recognition error: <message>`, which is never the non-match note; the caller
gets the 500 response.  A confident non-match is written with the same kind
`failed` and the note `Face not recognized`. -/
theorem oracle_failure_recorded_as_failed (req : Request) (env : Env) (db : Db)
    (file : UploadedFile) (msg : String)
    (hf : req.file = some file) (ho : env.oracle = Except.error msg) :
    newRows req env db =
        [ { id := db.nextScanId, employeeId := none, scanType := ScanType.failed,
            confidence := none, imagePath := some file.path,
            ipAddress := jsOrStr req.ip req.remoteAddress, userAgent := req.userAgent,
            location := none, notes := some ("Recognition error: " ++ msg),
            scannedAt := env.catchNow } ]
      ∧ some ("Recognition error: " ++ msg) ≠ some "Face not recognized"
      ∧ (recognize req env db).response.status = 500
      ∧ ∀ (env2 : Env) (data : RecognizeData), env2.oracle = Except.ok data →
          data.recognized = false →
          ∃ row rest, newRows req env2 db = row :: rest ∧ row.scanType = ScanType.failed
            ∧ row.notes = some "Face not recognized" := by
  refine ⟨?_, recognitionNote_ne msg, ?_, ?_⟩
  · simp [newRows, recognize, tryBlock, hf, ho, ScanHistory.create, catchValues]
  · simp [recognize, tryBlock, hf, ho]
  · intro env2 data ho2 hr
    rcases hio : env2.io with _ | _ | m <;>
      simp [newRows, recognize, tryBlock, hf, ho2, hr, hio, ScanHistory.create, catchValues,
        recordAttempt, respond]

theorem oracle_failure_recorded_as_failed_witness :
    scanRequest.file = some { path := "uploads/scans/scan-1.jpg", filename := "scan-1.jpg" }
      ∧ envTimeout.oracle = Except.error "timeout of 30000ms exceeded"
      ∧ newRows scanRequest envTimeout demoDb =
        [ { id := 1, employeeId := none, scanType := ScanType.failed,
            confidence := none, imagePath := some "uploads/scans/scan-1.jpg",
            ipAddress := some "10.0.0.7", userAgent := some "kiosk",
            location := none,
            notes := some "Recognition error: timeout of 30000ms exceeded",
            scannedAt := 102 } ] :=
  ⟨rfl, rfl, (oracle_failure_recorded_as_failed scanRequest envTimeout demoDb
    { path := "uploads/scans/scan-1.jpg", filename := "scan-1.jpg" }
    "timeout of 30000ms exceeded" rfl rfl).1⟩

/-! ## Which attempts are recorded as `success` -/

/-- C3.  For a request with an image, against a registry whose primary keys are
non-zero (they are auto-increment keys), a row of kind `success` is written if
and only if the oracle answered `recognized = true` with an employee id and that
id is the key of an employee present in the registry. -/
theorem success_row_iff_resolved_match (req : Request) (env : Env) (db : Db)
    (file : UploadedFile) (hf : req.file = some file)
    (hreg : ∀ e ∈ db.employees, e.id ≠ 0) :
    (∃ row ∈ newRows req env db, row.scanType = ScanType.success) ↔
      ∃ data id, env.oracle = Except.ok data ∧ data.recognized = true ∧
        data.employeeId = some id ∧ ∃ e ∈ db.employees, e.id = id := by
  rcases env with ⟨oracle, io, now, emitNow, catchNow⟩
  have key : ∀ e ∈ db.employees, e.id = 0 → False := fun e he h0 => hreg e he h0
  rcases oracle with msg | ⟨recognized, employeeId, confidence⟩
  · simp [newRows, recognize, tryBlock, hf, ScanHistory.create, catchValues]
  · rcases recognized with _ | _
    · rcases io with _ | _ | m <;>
        simp [newRows, recognize, tryBlock, hf, ScanHistory.create, catchValues, recordAttempt,
          respond]
    · rcases employeeId with _ | id
      · rcases io with _ | _ | m <;>
          simp [newRows, recognize, tryBlock, hf, ScanHistory.create, catchValues, recordAttempt,
            respond, truthyId]
      · by_cases hid : id = 0
        · subst hid
          rcases io with _ | _ | m <;>
            simp [newRows, recognize, tryBlock, hf, ScanHistory.create, catchValues,
              recordAttempt, respond, truthyId] <;> exact key
        · cases hfind : findByPk db.employees id with
          | none =>
            have hno : ¬ ∃ e ∈ db.employees, e.id = id := by
              rw [← findByPk_isSome_iff]; simp [hfind]
            rcases io with _ | _ | m <;>
              simp [newRows, recognize, tryBlock, hf, ScanHistory.create, catchValues,
                recordAttempt, respond, truthyId, hid, hfind] <;> simpa using hno
          | some e =>
            have hyes : ∃ e ∈ db.employees, e.id = id := by
              rw [← findByPk_isSome_iff]; exact ⟨e, hfind⟩
            rcases io with _ | _ | m <;>
              simp [newRows, recognize, tryBlock, hf, ScanHistory.create, catchValues,
                recordAttempt, respond, truthyId, hid, hfind] <;> exact hyes

theorem success_row_iff_resolved_match_witness :
    scanRequest.file = some { path := "uploads/scans/scan-1.jpg", filename := "scan-1.jpg" }
      ∧ (∀ e ∈ demoDb.employees, e.id ≠ 0)
      ∧ ((∃ row ∈ newRows scanRequest envMatch demoDb, row.scanType = ScanType.success) ↔
          ∃ data id, envMatch.oracle = Except.ok data ∧ data.recognized = true ∧
            data.employeeId = some id ∧ ∃ e ∈ demoDb.employees, e.id = id) :=
  ⟨rfl, by decide,
    success_row_iff_resolved_match scanRequest envMatch demoDb
      { path := "uploads/scans/scan-1.jpg", filename := "scan-1.jpg" } rfl (by decide)⟩

/-! ## A match to an id that is not in the registry -/

/-- C4 (evaluation at the failing input).  The oracle reports a match to id 42,
which the registry does not hold.  No row is written in the `try` block,
`scanResult.id` throws on `undefined`, and the catch block answers with the 500
error body; the one row written carries the `TypeError` text as its note. -/
theorem stale_match_gets_error_response :
    (recognize scanRequest envStaleId demoDb).response =
        { status := 500
          body := Body.error "Face recognition failed"
            (some "Unable to process face recognition at this time.") }
      ∧ newRows scanRequest envStaleId demoDb =
        [ { id := 1, employeeId := none, scanType := ScanType.failed, confidence := none,
            imagePath := some "uploads/scans/scan-1.jpg", ipAddress := some "10.0.0.7",
            userAgent := some "kiosk", location := none,
            notes := some ("Recognition error: " ++ errReadIdOfUndefined),
            scannedAt := 102 } ] := by
  decide

/-! ## No match -/

/-- C5 (counterexample).  The oracle answers no match and returns no confidence;
the row written stores the confidence `0`. -/
theorem nonmatch_without_confidence_stores_zero :
    envNoMatch.oracle
        = Except.ok { recognized := false, employeeId := none, confidence := none }
      ∧ (newRows scanRequest envNoMatch demoDb).map (fun r => r.confidence) = [some 0] :=
  ⟨rfl, by decide⟩

/-- C5 (amended).  When the oracle answers no match, the first row written has
kind `failed`, no subject reference, the note `Face not recognized`, and as
confidence the oracle's confidence when it returned one and `0` when it returned
none.  It is the only row written unless `io.emit` throws. -/
theorem nonmatch_row (req : Request) (env : Env) (db : Db) (file : UploadedFile)
    (data : RecognizeData) (hf : req.file = some file) (ho : env.oracle = Except.ok data)
    (hr : data.recognized = false) :
    ∃ rest, newRows req env db =
        { id := db.nextScanId, employeeId := none, scanType := ScanType.failed,
          confidence := some (data.confidence.getD 0), imagePath := some file.path,
          ipAddress := jsOrStr req.ip req.remoteAddress, userAgent := req.userAgent,
          location := jsOrStr req.location none, notes := some "Face not recognized",
          scannedAt := env.now } :: rest
      ∧ ((∀ m, env.io ≠ some (Emitter.throws m)) → rest = []) := by
  rcases hio : env.io with _ | _ | m <;>
    simp [newRows, recognize, tryBlock, hf, ho, hr, hio, ScanHistory.create, catchValues,
      recordAttempt, respond, jsOrZero_eq]

theorem nonmatch_row_witness :
    scanRequest.file = some { path := "uploads/scans/scan-1.jpg", filename := "scan-1.jpg" }
      ∧ envNoMatch.oracle
          = Except.ok { recognized := false, employeeId := none, confidence := none }
      ∧ ∃ rest, newRows scanRequest envNoMatch demoDb =
        { id := 1, employeeId := none, scanType := ScanType.failed, confidence := some 0,
          imagePath := some "uploads/scans/scan-1.jpg", ipAddress := some "10.0.0.7",
          userAgent := some "kiosk", location := none, notes := some "Face not recognized",
          scannedAt := 100 } :: rest
        ∧ ((∀ m, envNoMatch.io ≠ some (Emitter.throws m)) → rest = []) :=
  ⟨rfl, rfl,
    nonmatch_row scanRequest envNoMatch demoDb
      { path := "uploads/scans/scan-1.jpg", filename := "scan-1.jpg" }
      { recognized := false, employeeId := none, confidence := none } rfl rfl rfl⟩

/-! ## The response and the notification against the row -/

/-- C6.  Whenever the handler answers with a result body whose `recognized` field
is true, the attempt wrote exactly one row, that row has kind `success`, and
the `scanId` of the body is the id of that row. -/
theorem recognized_only_if_success_row (req : Request) (env : Env) (db : Db)
    (status : Nat) (b : ResultBody)
    (hres : (recognize req env db).response = { status := status, body := Body.result b })
    (hrec : b.recognized = true) :
    ∃ row, newRows req env db = [row] ∧ row.scanType = ScanType.success
      ∧ row.id = b.scanId := by
  rcases env with ⟨oracle, io, now, emitNow, catchNow⟩
  rcases hfile : req.file with _ | file
  · simp [recognize, tryBlock, hfile] at hres
  rcases oracle with msg | ⟨recognized, employeeId, confidence⟩
  · simp [recognize, tryBlock, hfile] at hres
  rcases recognized with _ | _
  · rcases io with _ | _ | m <;>
      simp [recognize, tryBlock, hfile, recordAttempt, ScanHistory.create, respond] at hres
    all_goals
      rw [← hres.2] at hrec
      simp at hrec
  · by_cases hid : truthyId employeeId = true
    · cases hfind : findByPk db.employees (employeeId.getD 0) with
      | none =>
        rcases io with _ | _ | m <;>
          simp [recognize, tryBlock, hfile, recordAttempt, ScanHistory.create, respond, hid,
            hfind] at hres
      | some e =>
        rcases io with _ | _ | m
        · simp [recognize, tryBlock, hfile, recordAttempt, ScanHistory.create, respond, hid,
            hfind] at hres
          simp [newRows, recognize, tryBlock, hfile, recordAttempt, ScanHistory.create, respond,
            hid, hfind, ← hres.2]
        · simp [recognize, tryBlock, hfile, recordAttempt, ScanHistory.create, respond, hid,
            hfind] at hres
          simp [newRows, recognize, tryBlock, hfile, recordAttempt, ScanHistory.create, respond,
            hid, hfind, ← hres.2]
        · simp [recognize, tryBlock, hfile, recordAttempt, ScanHistory.create, respond, hid,
            hfind] at hres
    · rcases io with _ | _ | m <;>
        simp [recognize, tryBlock, hfile, recordAttempt, ScanHistory.create, respond, hid]
          at hres

theorem recognized_only_if_success_row_witness :
    (recognize scanRequest envMatch demoDb).response =
        { status := 200
          body := Body.result
            { recognized := true, employee := some johnDoe, confidence := some (93 / 100),
              scanId := 1, message := "Welcome, John Doe!" } }
      ∧ ∃ row, newRows scanRequest envMatch demoDb = [row]
          ∧ row.scanType = ScanType.success ∧ row.id = 1 :=
  ⟨rfl,
    recognized_only_if_success_row scanRequest envMatch demoDb 200
      { recognized := true, employee := some johnDoe, confidence := some (93 / 100),
        scanId := 1, message := "Welcome, John Doe!" } rfl rfl⟩

/-- C7 (evaluation at the failing input).  The oracle reports a match to id 42,
which the registry does not hold.  The notification is emitted with type
`success`, while the only row persisted for the attempt has kind `failed`. -/
theorem stale_match_notification_disagrees_with_row :
    (recognize scanRequest envStaleId demoDb).emitted.map (fun n => n.type)
        = [ScanType.success]
      ∧ (newRows scanRequest envStaleId demoDb).map (fun r => r.scanType)
        = [ScanType.failed] := by
  decide

/-! ## Failure of the notification -/

/-- C8 (counterexample).  The oracle reports a match that resolves and `io.emit`
throws.  The `success` row is kept, a second row of kind `failed` is written for
the same attempt, and the caller receives the 500 error body. -/
theorem emit_failure_adds_row_and_fails_request :
    (newRows scanRequest envMatchEmitThrows demoDb).map (fun r => r.scanType)
        = [ScanType.success, ScanType.failed]
      ∧ (recognize scanRequest envMatchEmitThrows demoDb).response =
        { status := 500
          body := Body.error "Face recognition failed"
            (some "Unable to process face recognition at this time.") } := by
  decide

/-- C8 (amended).  If `io.emit` throws after the row `row` of the attempt has
been written, that row is kept, the catch block appends one further row of kind
`failed` whose note is `Recognition error: <message>`, nothing is emitted, and
the caller receives the 500 error body. -/
theorem emit_failure_keeps_row (req : Request) (env : Env) (db db1 : Db)
    (file : UploadedFile) (data : RecognizeData) (msg : String) (row : ScanHistory)
    (emp : Option Employee)
    (hf : req.file = some file) (ho : env.oracle = Except.ok data)
    (hio : env.io = some (Emitter.throws msg))
    (hrow : recordAttempt req env db file.path data = (db1, some row, emp)) :
    newRows req env db =
        [ row,
          { id := db.nextScanId + 1, employeeId := none, scanType := ScanType.failed,
            confidence := none, imagePath := some file.path,
            ipAddress := jsOrStr req.ip req.remoteAddress, userAgent := req.userAgent,
            location := none, notes := some ("Recognition error: " ++ msg),
            scannedAt := env.catchNow } ]
      ∧ (recognize req env db).emitted = []
      ∧ (recognize req env db).response =
        { status := 500
          body := Body.error "Face recognition failed"
            (some "Unable to process face recognition at this time.") } := by
  obtain ⟨hdb, -⟩ := recordAttempt_some req env db db1 file.path data row emp hrow
  subst hdb
  simp [newRows, recognize, tryBlock, hf, ho, hio, hrow, ScanHistory.create, catchValues]

theorem emit_failure_keeps_row_witness :
    scanRequest.file = some { path := "uploads/scans/scan-1.jpg", filename := "scan-1.jpg" }
      ∧ envMatchEmitThrows.io = some (Emitter.throws "emit failed")
      ∧ newRows scanRequest envMatchEmitThrows demoDb =
        [ { id := 1, employeeId := some 1, scanType := ScanType.success,
            confidence := some (93 / 100), imagePath := some "uploads/scans/scan-1.jpg",
            ipAddress := some "10.0.0.7", userAgent := some "kiosk",
            location := none, notes := none, scannedAt := 100 },
          { id := 2, employeeId := none, scanType := ScanType.failed,
            confidence := none, imagePath := some "uploads/scans/scan-1.jpg",
            ipAddress := some "10.0.0.7", userAgent := some "kiosk", location := none,
            notes := some "Recognition error: emit failed", scannedAt := 102 } ]
      ∧ (recognize scanRequest envMatchEmitThrows demoDb).emitted = []
      ∧ (recognize scanRequest envMatchEmitThrows demoDb).response.status = 500 :=
  have h := emit_failure_keeps_row scanRequest envMatchEmitThrows demoDb
    { demoDb with
      scans := [ { id := 1, employeeId := some 1, scanType := ScanType.success,
                   confidence := some (93 / 100),
                   imagePath := some "uploads/scans/scan-1.jpg",
                   ipAddress := some "10.0.0.7", userAgent := some "kiosk",
                   location := none, notes := none, scannedAt := 100 } ]
      nextScanId := 2 }
    { path := "uploads/scans/scan-1.jpg", filename := "scan-1.jpg" }
    { recognized := true, employeeId := some 1, confidence := some (93 / 100) }
    "emit failed"
    { id := 1, employeeId := some 1, scanType := ScanType.success,
      confidence := some (93 / 100), imagePath := some "uploads/scans/scan-1.jpg",
      ipAddress := some "10.0.0.7", userAgent := some "kiosk",
      location := none, notes := none, scannedAt := 100 }
    (some johnDoe) rfl rfl rfl rfl
  ⟨rfl, rfl, h.1, h.2.1, by rw [h.2.2]⟩

/-! ## A match that resolves -/

/-- C9.  When the oracle reports a match and the returned id resolves to an
employee of the registry (whose primary keys are non-zero), the first row
written has kind `success`, references that employee by id, and stores the
oracle confidence unchanged.  Unless `io.emit` throws it is the only row, and
the response is the result body with message `Welcome, <name>!`. -/
theorem resolved_match_row_and_message (req : Request) (env : Env) (db : Db)
    (file : UploadedFile) (data : RecognizeData) (id : Nat) (e : Employee)
    (hf : req.file = some file) (ho : env.oracle = Except.ok data)
    (hr : data.recognized = true) (hi : data.employeeId = some id)
    (hreg : ∀ x ∈ db.employees, x.id ≠ 0)
    (hfind : findByPk db.employees id = some e) :
    e.id = id ∧
    ∃ rest, newRows req env db =
        { id := db.nextScanId, employeeId := some e.id, scanType := ScanType.success,
          confidence := data.confidence, imagePath := some file.path,
          ipAddress := jsOrStr req.ip req.remoteAddress, userAgent := req.userAgent,
          location := jsOrStr req.location none, notes := none,
          scannedAt := env.now } :: rest
      ∧ ((∀ m, env.io ≠ some (Emitter.throws m)) →
          rest = [] ∧
          (recognize req env db).response =
            { status := 200
              body := Body.result
                { recognized := true, employee := some e, confidence := data.confidence,
                  scanId := db.nextScanId, message := "Welcome, " ++ e.name ++ "!" } }) := by
  obtain ⟨hmem, hid⟩ := findByPk_some db.employees id e hfind
  have hne : id ≠ 0 := hid ▸ hreg e hmem
  refine ⟨hid, ?_⟩
  rcases hio : env.io with _ | _ | m <;>
    simp [newRows, recognize, tryBlock, hf, ho, hr, hi, hio, hne, hfind, truthyId,
      ScanHistory.create, catchValues, recordAttempt, respond]

theorem resolved_match_row_and_message_witness :
    findByPk demoDb.employees 1 = some johnDoe
      ∧ johnDoe.id = 1
      ∧ ∃ rest, newRows scanRequest envMatch demoDb =
        { id := 1, employeeId := some 1, scanType := ScanType.success,
          confidence := some (93 / 100), imagePath := some "uploads/scans/scan-1.jpg",
          ipAddress := some "10.0.0.7", userAgent := some "kiosk",
          location := none, notes := none, scannedAt := 100 } :: rest
        ∧ ((∀ m, envMatch.io ≠ some (Emitter.throws m)) →
            rest = [] ∧
            (recognize scanRequest envMatch demoDb).response =
              { status := 200
                body := Body.result
                  { recognized := true, employee := some johnDoe,
                    confidence := some (93 / 100), scanId := 1,
                    message := "Welcome, John Doe!" } }) :=
  ⟨rfl,
    resolved_match_row_and_message scanRequest envMatch demoDb
      { path := "uploads/scans/scan-1.jpg", filename := "scan-1.jpg" }
      { recognized := true, employeeId := some 1, confidence := some (93 / 100) }
      1 johnDoe rfl rfl rfl rfl (by decide) rfl⟩

/-! ## Requests without an image -/

/-- C10.  A request without an image file is answered with status 400 and the
body `No image file provided`; the oracle is not called, the database is left
as it was (no scan-history row is written) and nothing is emitted. -/
theorem recognize_without_file_rejected (req : Request) (env : Env) (db : Db)
    (h : req.file = none) :
    (recognize req env db).response
        = { status := 400, body := Body.error "No image file provided" none }
      ∧ (recognize req env db).oracleCalls = 0
      ∧ (recognize req env db).db = db
      ∧ newRows req env db = []
      ∧ (recognize req env db).emitted = [] := by
  simp [recognize, tryBlock, h, newRows]

theorem recognize_without_file_rejected_witness :
    emptyRequest.file = none
      ∧ (recognize emptyRequest envMatch demoDb).response
        = { status := 400, body := Body.error "No image file provided" none }
      ∧ (recognize emptyRequest envMatch demoDb).oracleCalls = 0
      ∧ (recognize emptyRequest envMatch demoDb).db = demoDb
      ∧ newRows emptyRequest envMatch demoDb = []
      ∧ (recognize emptyRequest envMatch demoDb).emitted = [] :=
  ⟨rfl, recognize_without_file_rejected emptyRequest envMatch demoDb rfl⟩

/-! ## Matches and the stored encoding -/

/-- C11 (counterexample).  `johnDoe` has no stored encoding; when the oracle
names his id the attempt is recorded as `success` for him. -/
theorem match_for_subject_without_encoding :
    johnDoe.faceEncoding = none
      ∧ (newRows scanRequest envMatch demoDb).map (fun r => (r.scanType, r.employeeId))
        = [(ScanType.success, some johnDoe.id)] := by
  decide

/-- C11 (amended).  The handler does not consult the stored encoding: for any
subject `e` of the registry, with or without an encoding, an attempt is recorded
as `success` for `e` exactly when the oracle answered `recognized = true` with
the id of `e`. -/
theorem matched_iff_oracle_names_subject (req : Request) (env : Env) (db : Db)
    (file : UploadedFile) (id : Nat) (e : Employee)
    (hf : req.file = some file) (hreg : ∀ x ∈ db.employees, x.id ≠ 0)
    (hfind : findByPk db.employees id = some e) :
    (∃ row ∈ newRows req env db,
        row.scanType = ScanType.success ∧ row.employeeId = some e.id) ↔
      ∃ data, env.oracle = Except.ok data ∧ data.recognized = true ∧
        data.employeeId = some e.id := by
  obtain ⟨hmem, hid⟩ := findByPk_some db.employees id e hfind
  subst hid
  have hne : e.id ≠ 0 := hreg e hmem
  rcases env with ⟨oracle, io, now, emitNow, catchNow⟩
  rcases oracle with msg | ⟨recognized, employeeId, confidence⟩
  · simp [newRows, recognize, tryBlock, hf, ScanHistory.create, catchValues]
  rcases recognized with _ | _
  · rcases io with _ | _ | m <;>
      simp [newRows, recognize, tryBlock, hf, ScanHistory.create, catchValues, recordAttempt,
        respond]
  rcases employeeId with _ | id2
  · rcases io with _ | _ | m <;>
      simp [newRows, recognize, tryBlock, hf, ScanHistory.create, catchValues, recordAttempt,
        respond, truthyId]
  by_cases hid2 : id2 = 0
  · subst hid2
    rcases io with _ | _ | m <;>
      simp [newRows, recognize, tryBlock, hf, ScanHistory.create, catchValues,
        recordAttempt, respond, truthyId] <;> exact fun h => hne h.symm
  cases hfind2 : findByPk db.employees id2 with
  | none =>
    have hneq : id2 ≠ e.id := by
      intro h
      rw [h, hfind] at hfind2
      exact Option.noConfusion hfind2
    rcases io with _ | _ | m <;>
      simp [newRows, recognize, tryBlock, hf, ScanHistory.create, catchValues,
        recordAttempt, respond, truthyId, hid2, hfind2] <;> exact hneq
  | some e2 =>
    have hid3 := (findByPk_some db.employees id2 e2 hfind2).2
    rcases io with _ | _ | m <;>
      simp [newRows, recognize, tryBlock, hf, ScanHistory.create, catchValues,
        recordAttempt, respond, truthyId, hid2, hfind2, hid3]

theorem matched_iff_oracle_names_subject_witness :
    johnDoe.faceEncoding = none
      ∧ findByPk demoDb.employees 1 = some johnDoe
      ∧ ((∃ row ∈ newRows scanRequest envMatch demoDb,
            row.scanType = ScanType.success ∧ row.employeeId = some johnDoe.id) ↔
          ∃ data, envMatch.oracle = Except.ok data ∧ data.recognized = true ∧
            data.employeeId = some johnDoe.id) :=
  ⟨rfl, rfl,
    matched_iff_oracle_names_subject scanRequest envMatch demoDb
      { path := "uploads/scans/scan-1.jpg", filename := "scan-1.jpg" } 1 johnDoe
      rfl (by decide) rfl⟩

/-! ## What a purge leaves behind -/

/-- The purge as a filter: when the database accepts the where clause, the rows
it does not select are kept, in their order, and the count of the selected rows
is returned; when it rejects the clause nothing changes. -/
theorem clearHistory_eq (q : PurgeQuery) (env : PurgeEnv) (db : Db) :
    (∃ selected, purgeWhere q env = some selected
        ∧ (clearHistory q env db).1 = { db with scans := db.scans.filter (fun r => !selected r) }
        ∧ (clearHistory q env db).2.deletedCount = some (db.scans.filter selected).length)
      ∨ (purgeWhere q env = none
        ∧ (clearHistory q env db).1 = db
        ∧ (clearHistory q env db).2 = PurgeResponse.error "Failed to clear scan history") := by
  cases h : purgeWhere q env with
  | some selected => exact Or.inl ⟨selected, rfl, by simp [clearHistory, h], by
      simp [clearHistory, h, PurgeResponse.deletedCount]⟩
  | none => exact Or.inr ⟨rfl, by simp [clearHistory, h], by simp [clearHistory, h]⟩

/-- A purge adds no row to the scan history. -/
theorem clearHistory_scans_subset (q : PurgeQuery) (env : PurgeEnv) (db : Db) :
    ∀ r ∈ (clearHistory q env db).1.scans, r ∈ db.scans := by
  intro r hr
  rcases clearHistory_eq q env db with ⟨selected, _, h, _⟩ | ⟨_, h, _⟩
  · rw [h] at hr
    exact (List.mem_filter.mp hr).1
  · rwa [h] at hr

/-! ## Subject references in the scan history -/

/-- Every row written by one run of the handler that carries a subject
reference has kind `success`. -/
theorem newRows_refOnlyOnSuccess (req : Request) (env : Env) (db : Db) :
    RefOnlyOnSuccess (newRows req env db) := by
  intro r hr href
  rcases env with ⟨oracle, io, now, emitNow, catchNow⟩
  rcases hfile : req.file with _ | file
  · simp [newRows, recognize, tryBlock, hfile] at hr
  rcases oracle with msg | ⟨recognized, employeeId, confidence⟩
  · simp [newRows, recognize, tryBlock, hfile, ScanHistory.create, catchValues] at hr
    subst hr
    simp at href
  by_cases hc : (recognized && truthyId employeeId) = true
  · cases hfind : findByPk db.employees (employeeId.getD 0) with
    | none =>
      rcases io with _ | _ | m <;>
        simp [newRows, recognize, tryBlock, hfile, recordAttempt, ScanHistory.create, respond,
          hc, hfind, catchValues] at hr <;> subst hr <;> simp at href
    | some e =>
      rcases recognized with _ | _
      · simp at hc
      rcases io with _ | _ | m <;>
        simp [newRows, recognize, tryBlock, hfile, recordAttempt, ScanHistory.create, respond,
          hc, hfind, catchValues] at hr
      · subst hr; rfl
      · subst hr; rfl
      · rcases hr with hr | hr <;> subst hr
        · rfl
        · simp at href
  · rcases recognized with _ | _ <;> rcases io with _ | _ | m <;>
      simp [newRows, recognize, tryBlock, hfile, recordAttempt, ScanHistory.create, respond,
        hc, catchValues] at hr
    all_goals first
      | (subst hr; simp at href)
      | (rcases hr with hr | hr <;> subst hr <;> simp at href)

/-- One operation keeps the property that only `success` rows carry a subject
reference. -/
theorem step_refOnlyOnSuccess (db : Db) (op : Op) (h : RefOnlyOnSuccess db.scans) :
    RefOnlyOnSuccess (step db op).scans := by
  cases op with
  | recognize req env =>
    intro r hr
    simp only [step] at hr
    rw [(recognize_appends req env db).1, List.mem_append] at hr
    rcases hr with hr | hr
    · exact h r hr
    · exact newRows_refOnlyOnSuccess req env db r hr
  | clearHistory q env =>
    intro r hr
    exact h r (clearHistory_scans_subset q env db r hr)
  | deleteEmployee id =>
    intro r hr href
    simp only [step, deleteEmployee] at hr
    cases hfind : findByPk db.employees id with
    | none =>
      simp only [hfind] at hr
      exact h r hr href
    | some e =>
      simp only [hfind, List.mem_map] at hr
      obtain ⟨r0, hr0, rfl⟩ := hr
      by_cases hc : r0.employeeId = some e.id
      · simp [hc] at href
      · simp only [hc, if_false] at href ⊢
        exact h r0 hr0 href

/-- C12.  Starting from a scan history in which only `success` rows carry a
subject reference (the empty history in particular), every history reached
through any sequence of recognize, purge and subject-deletion operations has
the same property. -/
theorem reference_only_on_success (db0 : Db) (ops : List Op)
    (h0 : RefOnlyOnSuccess db0.scans) :
    RefOnlyOnSuccess (run db0 ops).scans := by
  induction ops generalizing db0 with
  | nil => exact h0
  | cons op rest ih => exact ih (step db0 op) (step_refOnlyOnSuccess db0 op h0)

theorem reference_only_on_success_witness :
    RefOnlyOnSuccess demoDb.scans
      ∧ RefOnlyOnSuccess
          (run demoDb
            [Op.recognize scanRequest envMatch, Op.recognize scanRequest envNoMatch,
             Op.deleteEmployee 1, Op.clearHistory purgeDefault purgeEnv]).scans :=
  ⟨fun _ hr => by simp [demoDb] at hr,
    reference_only_on_success demoDb
      [Op.recognize scanRequest envMatch, Op.recognize scanRequest envNoMatch,
       Op.deleteEmployee 1, Op.clearHistory purgeDefault purgeEnv]
      (fun _ hr => by simp [demoDb] at hr)⟩

/-! ## Purge -/

/-- C16 (counterexample).  A purge of everything older than one hour deletes
the matched row `oldSuccessRow`, recorded 48 hours earlier. -/
theorem purge_olderThan_deletes_matched_row :
    oldSuccessRow ∈ historyDb.scans
      ∧ oldSuccessRow.scanType = ScanType.success
      ∧ oldSuccessRow ∉ (clearHistory purgeOlderThanOne purgeEnv historyDb).1.scans := by
  decide

/-- C16 (amended).  A row of kind `success` is deleted by a purge exactly when
the purge runs in the `olderThan(hours)` mode (that is, `allFailed` is not
`true` and `olderThan` is given) and the row is older than the cutoff, or the
cutoff is an Invalid Date and the database finds the comparison with it true of
the row; the `allFailed` mode and the default mode delete no `success` row. -/
theorem purge_deletes_matched_iff_olderThan (q : PurgeQuery) (env : PurgeEnv) (db : Db)
    (r : ScanHistory) (hr : r ∈ db.scans) (hs : r.scanType = ScanType.success) :
    r ∉ (clearHistory q env db).1.scans ↔
      q.allFailed ≠ some "true" ∧
        ∃ hours, q.olderThan = some hours ∧
          ((∃ cutoff, cutoffDate env.tz env.now hours = some cutoff
              ∧ (r.scannedAt : ℤ) < cutoff)
            ∨ (cutoffDate env.tz env.now hours = none
              ∧ ∃ f, env.invalidDate = some f ∧ f r = true)) := by
  rcases q with ⟨olderThan, allFailed⟩
  by_cases ha : allFailed = some "true"
  · simp [clearHistory, purgeWhere, ha, hr, hs]
  · rcases olderThan with _ | hours
    · cases hb : scannedBefore env (some 24) with
      | none => simp [clearHistory, purgeWhere, ha, hr, hb]
      | some before => simp [clearHistory, purgeWhere, ha, hr, hs, hb]
    · cases hc : cutoffDate env.tz env.now hours with
      | some cutoff => simp [clearHistory, purgeWhere, scannedBefore, ha, hr, hc]
      | none =>
        cases hi : env.invalidDate with
        | none => simp [clearHistory, purgeWhere, scannedBefore, ha, hr, hc, hi]
        | some f => simp [clearHistory, purgeWhere, scannedBefore, ha, hr, hc, hi]

theorem purge_deletes_matched_iff_olderThan_witness :
    oldSuccessRow ∈ historyDb.scans
      ∧ oldSuccessRow.scanType = ScanType.success
      ∧ (oldSuccessRow ∉ (clearHistory purgeAllFailed purgeEnv historyDb).1.scans ↔
          purgeAllFailed.allFailed ≠ some "true" ∧
            ∃ hours, purgeAllFailed.olderThan = some hours ∧
              ((∃ cutoff, cutoffDate purgeEnv.tz purgeEnv.now hours = some cutoff
                  ∧ (oldSuccessRow.scannedAt : ℤ) < cutoff)
                ∨ (cutoffDate purgeEnv.tz purgeEnv.now hours = none
                  ∧ ∃ f, purgeEnv.invalidDate = some f ∧ f oldSuccessRow = true))) :=
  ⟨by decide, rfl,
    purge_deletes_matched_iff_olderThan purgeAllFailed purgeEnv historyDb oldSuccessRow
      (by decide) rfl⟩

/-- C17.  In the `allFailed` mode and in the default mode (no `olderThan`) the
number of rows of kind `success` is the same before and after the purge. -/
theorem purge_preserves_matched_count (q : PurgeQuery) (env : PurgeEnv) (db : Db)
    (hmode : q.allFailed = some "true" ∨ q.olderThan = none) :
    countType (clearHistory q env db).1.scans ScanType.success
      = countType db.scans ScanType.success := by
  rcases clearHistory_eq q env db with ⟨selected, hsel, h, _⟩ | ⟨_, h, _⟩
  · have key : ∀ r : ScanHistory, r.scanType = ScanType.success → selected r = false := by
      intro r hs
      by_cases ha : q.allFailed = some "true"
      · simp only [purgeWhere, ha, if_true, Option.some.injEq] at hsel
        subst hsel
        simp [hs]
      · have ho : q.olderThan = none := hmode.resolve_left ha
        simp only [purgeWhere, ha, if_false, ho, Option.map_eq_some'] at hsel
        obtain ⟨before, _, rfl⟩ := hsel
        simp [hs]
    rw [h]
    simp only [countType, List.filter_filter]
    congr 1
    apply List.filter_congr
    intro r _
    by_cases hs : r.scanType = ScanType.success
    · simp [hs, key r hs]
    · simp [hs]
  · rw [h]

theorem purge_preserves_matched_count_witness :
    (purgeDefault.allFailed = some "true" ∨ purgeDefault.olderThan = none)
      ∧ countType (clearHistory purgeDefault purgeEnv historyDb).1.scans ScanType.success
        = countType historyDb.scans ScanType.success :=
  ⟨Or.inr rfl, purge_preserves_matched_count purgeDefault purgeEnv historyDb (Or.inr rfl)⟩

/-- In a zone whose offset from UTC does not change, `setHours` moves the
instant back by `hours` times 3 600 000 ms, as long as the result is a valid
date. -/
theorem cutoffDate_fixed_offset (tz : TimeZone) (c : ℤ) (now : Nat) (hours : ℤ)
    (hoff : ∀ t, tz.offsetAtUtc t = c ∧ tz.offsetAtLocal t = c)
    (hvalid : |(now : ℤ) - hours * 3600000| ≤ maxTimeValue) :
    cutoffDate tz now (some hours) = some ((now : ℤ) - hours * 3600000) := by
  have h : (now : ℤ) + c - hours * 3600000 - c = (now : ℤ) - hours * 3600000 := by ring
  simp only [cutoffDate, (hoff _).1, (hoff _).2, h, hvalid, if_true]

/-- Where the claim on the selection of the purge holds: in a zone whose offset
from UTC does not change, for an `olderThan` that is a number and leaves the
cutoff a valid date, on rows that are not of kind `unknown`, the where clause
selects the rows that the specification names, in elapsed hours. -/
theorem purgeWhere_iff_spec_fixed_offset (q : PurgeQuery) (env : PurgeEnv) (c : ℤ)
    (hoff : ∀ t, env.tz.offsetAtUtc t = c ∧ env.tz.offsetAtLocal t = c)
    (hnow : |(env.now : ℤ) - 24 * 3600000| ≤ maxTimeValue)
    (hq : ∀ v, q.olderThan = some v →
      ∃ hours, v = some hours ∧ |(env.now : ℤ) - hours * 3600000| ≤ maxTimeValue) :
    ∃ selected, purgeWhere q env = some selected
      ∧ ∀ r : ScanHistory, r.scanType ≠ ScanType.unknown →
          (selected r = true ↔ purgeSelectsSpec q env.now r) := by
  have hk : ∀ r : ScanHistory, r.scanType ≠ ScanType.unknown →
      (r.scanType = ScanType.failed ↔ r.scanType ≠ ScanType.success) := by
    intro r hr
    cases hs : r.scanType <;> simp [hs] at hr ⊢
  rcases q with ⟨olderThan, allFailed⟩
  by_cases ha : allFailed = some "true"
  · refine ⟨fun r => r.scanType == ScanType.failed, by simp [purgeWhere, ha], fun r hr => ?_⟩
    simp [purgeSelectsSpec, ha, hk r hr]
  · rcases olderThan with _ | v
    · have hc := cutoffDate_fixed_offset env.tz c env.now 24 hoff hnow
      refine ⟨fun r => r.scanType == ScanType.failed
          && decide ((r.scannedAt : ℤ) < (env.now : ℤ) - 24 * 3600000),
        by simp [purgeWhere, scannedBefore, ha, hc], fun r hr => ?_⟩
      simp only [purgeSelectsSpec, ha, if_false, Bool.and_eq_true, beq_iff_eq,
        decide_eq_true_eq, hk r hr]
      constructor <;> rintro ⟨h1, h2⟩ <;> exact ⟨h1, by linarith⟩
    · obtain ⟨hours, rfl, hvalid⟩ := hq v rfl
      have hc := cutoffDate_fixed_offset env.tz c env.now hours hoff hvalid
      refine ⟨fun r => decide ((r.scannedAt : ℤ) < (env.now : ℤ) - hours * 3600000),
        by simp [purgeWhere, scannedBefore, ha, hc], fun r _ => ?_⟩
      simp only [purgeSelectsSpec, ha, if_false, decide_eq_true_eq]
      constructor <;> intro h <;> linarith

/-- C18 (failing inputs).  Two runs in which the purge removes rows that its
mode, read in elapsed hours, does not select.

On a server in New York at 12:00 EDT on 10 March 2024 the purge with no
parameter removes `dstFailedRow`, a failed scan that is 23 hours and 30 minutes
old: `setHours` moved the wall clock back to 12:00 EST of the day before, which
is 23 hours earlier.  The count returned is 1.

On a server on UTC with SQLite, `olderThan=99999999999999` makes `cutoffDate`
an Invalid Date, and the purge removes all three rows of `historyDb`, none of
which is that old; the count returned is 3. -/
theorem purge_removes_rows_its_mode_does_not_select :
    (dstFailedRow ∈ dstDb.scans
        ∧ ¬ ((dstFailedRow.scannedAt : ℤ) + 24 * 3600000 < (dstEnv.now : ℤ))
        ∧ ¬ purgeSelectsSpec purgeDefault dstEnv.now dstFailedRow
        ∧ cutoffDate dstEnv.tz dstEnv.now (some 24) = some ((dstEnv.now : ℤ) - 23 * 3600000)
        ∧ (clearHistory purgeDefault dstEnv dstDb).1.scans = []
        ∧ (clearHistory purgeDefault dstEnv dstDb).2.deletedCount = some 1)
      ∧ ((∀ r ∈ historyDb.scans, ¬ purgeSelectsSpec purgeOlderThanHuge purgeEnv.now r)
        ∧ cutoffDate purgeEnv.tz purgeEnv.now (some 99999999999999) = none
        ∧ (clearHistory purgeOlderThanHuge purgeEnv historyDb).1.scans = []
        ∧ (clearHistory purgeOlderThanHuge purgeEnv historyDb).2.deletedCount = some 3) := by
  refine ⟨⟨by decide, by decide, ?_, by decide, by decide, by decide⟩,
    ⟨?_, by decide, by decide, by decide⟩⟩
  · simp [purgeSelectsSpec, purgeDefault, dstEnv, dstFailedRow]
  · intro r hr
    simp only [historyDb, List.mem_cons, List.mem_singleton, List.not_mem_nil, or_false] at hr
    rcases hr with rfl | rfl | rfl <;>
      simp [purgeSelectsSpec, purgeOlderThanHuge, purgeEnv, purgeNow, oldSuccessRow,
        oldFailedRow, recentFailedRow]

/-! ## Enrollment with an identity code that is taken -/

/-- C19.  Enrolling with an identity code that a subject of the registry already
has is answered with status 400 and `Employee ID already exists`; the database,
the existing subject row included, is left as it was, and the oracle is not
called. -/
theorem duplicate_identity_rejected (req : EnrollRequest) (env : EnrollEnv) (db : Db)
    (code : String) (e : Employee)
    (hcode : req.body.employeeId = some code)
    (hmem : e ∈ db.employees) (hdup : e.employeeId = code) :
    (createEmployee req env db).status = 400
      ∧ (createEmployee req env db).body = EmployeeBodyOut.error "Employee ID already exists"
      ∧ (createEmployee req env db).db = db
      ∧ e ∈ (createEmployee req env db).db.employees
      ∧ (createEmployee req env db).oracleCalls = 0 := by
  have hfound : ∃ x, db.employees.find? (fun x => x.employeeId == code) = some x := by
    cases hfind : db.employees.find? (fun x => x.employeeId == code) with
    | some x => exact ⟨x, rfl⟩
    | none =>
      rw [List.find?_eq_none] at hfind
      have := hfind e hmem
      simp [hdup] at this
  obtain ⟨x, hx⟩ := hfound
  simp [createEmployee, findOneByEmployeeId, hcode, hx, hmem]

theorem duplicate_identity_rejected_witness :
    enrollDuplicate.body.employeeId = some "EMP001"
      ∧ johnDoe ∈ demoDb.employees
      ∧ johnDoe.employeeId = "EMP001"
      ∧ (createEmployee enrollDuplicate enrollEnvOk demoDb).status = 400
      ∧ (createEmployee enrollDuplicate enrollEnvOk demoDb).body
          = EmployeeBodyOut.error "Employee ID already exists"
      ∧ (createEmployee enrollDuplicate enrollEnvOk demoDb).db = demoDb
      ∧ johnDoe ∈ (createEmployee enrollDuplicate enrollEnvOk demoDb).db.employees
      ∧ (createEmployee enrollDuplicate enrollEnvOk demoDb).oracleCalls = 0 :=
  ⟨rfl, by decide, rfl,
    duplicate_identity_rejected enrollDuplicate enrollEnvOk demoDb "EMP001" johnDoe
      rfl (by decide) rfl⟩

/-- C20 (counterexample).  The pre-check finds no subject with code `EMP007`,
the storage layer rejects the insert on the unique index, and the answer is
status 500 with `Failed to create employee`; the pre-check's own answer to a
duplicate is status 400 with `Employee ID already exists`. -/
theorem insert_conflict_gets_generic_failure :
    findOneByEmployeeId demoDb.employees enrollFresh.body.employeeId = Except.ok none
      ∧ enrollEnvRace.insertConflict = true
      ∧ (createEmployee enrollFresh enrollEnvRace demoDb).status = 500
      ∧ (createEmployee enrollFresh enrollEnvRace demoDb).body
          = EmployeeBodyOut.error "Failed to create employee"
      ∧ (createEmployee enrollDuplicate enrollEnvOk demoDb).body
          = EmployeeBodyOut.error "Employee ID already exists" :=
  ⟨rfl, rfl, by decide, by decide, by decide⟩

/-- C20 (amended).  If the pre-check finds no subject with the identity code and
the storage layer then rejects the insert on the unique index, enrollment
answers with the generic failure (status 500, `Failed to create employee`),
which is not the duplicate-identity answer of the pre-check, and the database
is left as it was. -/
theorem insert_conflict_answer (req : EnrollRequest) (env : EnrollEnv) (db : Db)
    (hpre : findOneByEmployeeId db.employees req.body.employeeId = Except.ok none)
    (hrace : env.insertConflict = true) :
    (createEmployee req env db).status = 500
      ∧ (createEmployee req env db).body = EmployeeBodyOut.error "Failed to create employee"
      ∧ (createEmployee req env db).body ≠ EmployeeBodyOut.error "Employee ID already exists"
      ∧ (createEmployee req env db).db = db := by
  have hbody : (createEmployee req env db).status = 500
      ∧ (createEmployee req env db).body = EmployeeBodyOut.error "Failed to create employee"
      ∧ (createEmployee req env db).db = db := by
    simp only [createEmployee, hpre, Employee.create, hrace, Bool.true_or, if_true]
    rcases req.body.employeeId with _ | a <;> rcases req.body.name with _ | b <;>
      rcases req.body.specialty with _ | c <;> rcases req.body.city with _ | d <;>
      rcases req.body.birthDate with _ | f <;> simp
  refine ⟨hbody.1, hbody.2.1, ?_, hbody.2.2⟩
  rw [hbody.2.1]
  decide

theorem insert_conflict_answer_witness :
    findOneByEmployeeId demoDb.employees enrollFresh.body.employeeId = Except.ok none
      ∧ enrollEnvRace.insertConflict = true
      ∧ (createEmployee enrollFresh enrollEnvRace demoDb).status = 500
      ∧ (createEmployee enrollFresh enrollEnvRace demoDb).body
          = EmployeeBodyOut.error "Failed to create employee"
      ∧ (createEmployee enrollFresh enrollEnvRace demoDb).body
          ≠ EmployeeBodyOut.error "Employee ID already exists"
      ∧ (createEmployee enrollFresh enrollEnvRace demoDb).db = demoDb :=
  ⟨rfl, rfl, insert_conflict_answer enrollFresh enrollEnvRace demoDb rfl rfl⟩

/-! ## Double rounding in the statistics and the page count -/

theorem isDoubleRounding_fl_zero (fl : ℚ → ℚ) (hfl : IsDoubleRounding fl) : fl 0 = 0 := by
  simpa using hfl.exact_int 0 (by norm_num)

theorem toFixed2_rate_bounds (fl : ℚ → ℚ) (hfl : IsDoubleRounding fl) (s t : ℕ)
    (ht : 0 < t) (hst : s ≤ t) (hbig : t < 2 ^ 31) :
    0 ≤ toFixed2 (fl (fl ((s : ℚ) / (t : ℚ)) * 100)) ∧
      2 * |toFixed2 (fl (fl ((s : ℚ) / (t : ℚ)) * 100)) * (t : ℤ) - 10000 * (s : ℤ)|
        ≤ (t : ℤ) := by
  have e53 : (2 : ℚ) ^ 53 = 9007199254740992 := by norm_num
  have elo : (1 : ℚ) / 2 ^ 1022 ≤ 1 / 2 ^ 31 := by
    apply one_div_le_one_div_of_le (by positivity)
    exact pow_le_pow_right₀ (by norm_num) (by norm_num)
  have ehi : (200 : ℚ) ≤ 2 ^ 1023 := by
    calc (200 : ℚ) ≤ 2 ^ 8 := by norm_num
      _ ≤ 2 ^ 1023 := pow_le_pow_right₀ (by norm_num) (by norm_num)
  have htq : (0 : ℚ) < t := by exact_mod_cast ht
  have hstq : (s : ℚ) ≤ t := by exact_mod_cast hst
  have hbq : (t : ℚ) < 2 ^ 31 := by exact_mod_cast hbig
  have e31 : (2 : ℚ) ^ 31 = 2147483648 := by norm_num
  rcases Nat.eq_zero_or_pos s with hs | hs
  · subst hs
    have h0 := isDoubleRounding_fl_zero fl hfl
    have hfloor : ⌊(1 : ℚ) / 2⌋ = 0 := by
      rw [Int.floor_eq_iff]; norm_num
    simp only [Nat.cast_zero, zero_div, h0, zero_mul, toFixed2, lt_irrefl, if_false,
      zero_add, hfloor, mul_zero, sub_zero, abs_zero]
    constructor
    · exact le_refl 0
    · exact_mod_cast ht.le
  · have hsq : (1 : ℚ) ≤ s := by exact_mod_cast hs
    set x : ℚ := (s : ℚ) / (t : ℚ) with hx
    have hxt : x * t = s := by rw [hx]; field_simp
    have hx1 : x ≤ 1 := by rw [hx, div_le_one htq]; exact hstq
    have hx0 : 1 / 2 ^ 31 ≤ x := by
      rw [hx, div_le_div_iff₀ (by positivity) htq]
      nlinarith
    have hxpos : 0 < x := lt_of_lt_of_le (by positivity) hx0
    have hq := abs_le.mp (hfl.rel_err x (le_trans elo hx0) (le_trans hx1 (by linarith)))
    set q : ℚ := fl x with hqdef
    rw [e53] at hq
    have hy1 : 1 / 2 ^ 1022 ≤ q * 100 := by
      refine le_trans elo (le_trans hx0 ?_)
      linarith [hq.1]
    have hy2 : q * 100 ≤ 2 ^ 1023 := by
      refine le_trans ?_ ehi
      linarith [hq.2]
    have hp := abs_le.mp (hfl.rel_err (q * 100) hy1 hy2)
    set p : ℚ := fl (q * 100) with hpdef
    rw [e53] at hp
    have hp0 : 0 ≤ p := by linarith [hp.1, hq.1]
    have hn : toFixed2 p = ⌊p * 100 + 1 / 2⌋ := by
      simp [toFixed2, not_lt.mpr hp0]
    rw [hn]
    have hfl1 : ((⌊p * 100 + 1 / 2⌋ : ℤ) : ℚ) ≤ p * 100 + 1 / 2 := Int.floor_le _
    have hfl2 : p * 100 + 1 / 2 < ((⌊p * 100 + 1 / 2⌋ : ℤ) : ℚ) + 1 := Int.lt_floor_add_one _
    set n : ℤ := ⌊p * 100 + 1 / 2⌋ with hndef
    have hd1 : p - 100 * x ≤ 300 * x / 9007199254740992 := by linarith [hp.2, hq.2]
    have hd2 : -(300 * x / 9007199254740992) ≤ p - 100 * x := by linarith [hp.1, hq.1]
    have hd1t := mul_le_mul_of_nonneg_right hd1 htq.le
    have hd2t := mul_le_mul_of_nonneg_right hd2 htq.le
    have hf1t := mul_le_mul_of_nonneg_right hfl1 htq.le
    have hf2t := mul_lt_mul_of_pos_right hfl2 htq
    rw [e31] at hbq
    have hup : 2 * ((n : ℚ) * (t : ℚ) - 10000 * (s : ℚ)) < (t : ℚ) + 1 := by
      linarith
    have hdn : -((t : ℚ) + 1) < 2 * ((n : ℚ) * (t : ℚ) - 10000 * (s : ℚ)) := by
      linarith
    constructor
    · exact Int.floor_nonneg.mpr (by linarith)
    · have hup' : 2 * (n * (t : ℤ) - 10000 * (s : ℤ)) < (t : ℤ) + 1 := by exact_mod_cast hup
      have hdn' : -((t : ℤ) + 1) < 2 * (n * (t : ℤ) - 10000 * (s : ℤ)) := by exact_mod_cast hdn
      rw [← abs_two, ← abs_mul]  
      rw [abs_le]
      constructor <;> omega

theorem ceil_fl_div (fl : ℚ → ℚ) (hfl : IsDoubleRounding fl) (c l : ℕ)
    (hl : 0 < l) (hc : c < 2 ^ 53) (hl2 : l < 2 ^ 53) :
    ⌈fl ((c : ℚ) / (l : ℚ))⌉ = ⌈(c : ℚ) / (l : ℚ)⌉ := by
  have e53 : (2 : ℚ) ^ 53 = 9007199254740992 := by norm_num
  have hlq : (0 : ℚ) < l := by exact_mod_cast hl
  have hcq : (c : ℚ) < 2 ^ 53 := by exact_mod_cast hc
  have hl2q : (l : ℚ) < 2 ^ 53 := by exact_mod_cast hl2
  rcases Nat.eq_zero_or_pos c with hc0 | hc0
  · subst hc0
    simp [isDoubleRounding_fl_zero fl hfl]
  have hc1 : (1 : ℚ) ≤ c := by exact_mod_cast hc0
  set x : ℚ := (c : ℚ) / (l : ℚ) with hx
  have hxl : x * l = c := by rw [hx]; field_simp
  have hxpos : 0 < x := by rw [hx]; positivity
  set k : ℤ := ⌈x⌉ with hk
  have hk1 : x ≤ k := Int.le_ceil x
  have hk2 : (k : ℚ) < x + 1 := Int.ceil_lt_add_one x
  have hxc : x ≤ c := by
    rw [hx, div_le_iff₀ hlq]
    have : (1 : ℚ) ≤ l := by exact_mod_cast hl
    nlinarith
  rcases eq_or_lt_of_le hk1 with heq | hlt
  · have hkabs : |k| ≤ 2 ^ 53 := by
      have hk0 : (0 : ℚ) ≤ k := by linarith
      have hk0' : (0 : ℤ) ≤ k := by exact_mod_cast hk0
      rw [abs_of_nonneg hk0']
      have : (k : ℚ) ≤ 2 ^ 53 := by linarith
      exact_mod_cast this
    rw [heq, hfl.exact_int k hkabs, Int.ceil_intCast]
  · have hlo : (1 : ℚ) / 2 ^ 1022 ≤ x := by
      have h1 : (1 : ℚ) / 2 ^ 1022 ≤ 1 / 2 ^ 53 := by
        apply one_div_le_one_div_of_le (by positivity)
        exact pow_le_pow_right₀ (by norm_num) (by norm_num)
      have h2 : (1 : ℚ) / 2 ^ 53 ≤ x := by
        rw [hx, div_le_div_iff₀ (by positivity) hlq]
        nlinarith
      exact le_trans h1 h2
    have hhi : x ≤ 2 ^ 1023 := by
      have h1 : (2 : ℚ) ^ 53 ≤ 2 ^ 1023 := pow_le_pow_right₀ (by norm_num) (by norm_num)
      linarith
    have hr := abs_le.mp (hfl.rel_err x hlo hhi)
    rw [e53] at hr hcq
    have hA : (c : ℚ) + 1 ≤ k * l := by
      have h : (c : ℚ) < k * l := by rw [← hxl]; exact mul_lt_mul_of_pos_right hlt hlq
      have h' : (c : ℤ) < k * (l : ℤ) := by exact_mod_cast h
      have h'' : (c : ℤ) + 1 ≤ k * (l : ℤ) := h'
      exact_mod_cast h''
    have hB : ((k : ℚ) - 1) * l + 1 ≤ c := by
      have h : ((k : ℚ) - 1) * l < c := by
        rw [← hxl]; exact mul_lt_mul_of_pos_right (by linarith) hlq
      have h' : (k - 1) * (l : ℤ) < (c : ℤ) := by exact_mod_cast h
      have h'' : (k - 1) * (l : ℤ) + 1 ≤ (c : ℤ) := h'
      exact_mod_cast h''
    rw [Int.ceil_eq_iff]
    have hr1 := mul_le_mul_of_nonneg_right hr.1 hlq.le
    have hr2 := mul_le_mul_of_nonneg_right hr.2 hlq.le
    constructor
    · by_contra hcon
      push_neg at hcon
      have := mul_le_mul_of_nonneg_right hcon hlq.le
      nlinarith
    · by_contra hcon
      push_neg at hcon
      have := mul_lt_mul_of_pos_right hcon hlq
      nlinarith

theorem isDoubleRounding_id : IsDoubleRounding id := by
  refine ⟨fun n _ => rfl, fun x hx _ => ?_⟩
  have h0 : (0 : ℚ) ≤ x := le_trans (by positivity) hx
  simp only [id, sub_self, abs_zero]
  positivity

theorem countType_le_length (scans : List ScanHistory) (t : ScanType) :
    countType scans t ≤ scans.length :=
  List.length_filter_le _ _

/-! ## Statistics -/

/-- C13.  With fewer than `2 ^ 31` rows in the history (the key of the table is
a 32-bit auto-increment integer) and doubles rounded to nearest: `totalScans`
is the number of rows and `successScans` the number of rows of kind `success`;
when the total is positive the success rate is a `toFixed(2)` string whose
value is a multiple of 0.01 nearest to `successScans / totalScans * 100` (within
0.005 of it); when the total is zero the success rate is the number 0. -/
theorem stats_success_rate (fl : ℚ → ℚ) (today : Nat) (db : Db)
    (hfl : IsDoubleRounding fl) (hrows : db.scans.length < 2 ^ 31) :
    (stats fl today db).2.totalScans = db.scans.length
      ∧ (stats fl today db).2.successScans = countType db.scans ScanType.success
      ∧ (0 < db.scans.length →
          ∃ n : ℤ, (stats fl today db).2.successRate = SuccessRate.fixed2 n
            ∧ (stats fl today db).2.successRate.value = (n : ℚ) / 100
            ∧ |(n : ℚ) / 100
                - (countType db.scans ScanType.success : ℚ) / (db.scans.length : ℚ) * 100|
              ≤ 1 / 200)
      ∧ (db.scans.length = 0 →
          (stats fl today db).2.successRate = SuccessRate.number 0) := by
  refine ⟨rfl, rfl, ?_, ?_⟩
  · intro hpos
    obtain ⟨-, hb⟩ := toFixed2_rate_bounds fl hfl (countType db.scans ScanType.success)
      db.scans.length hpos (countType_le_length _ _) hrows
    refine ⟨toFixed2 (fl (fl ((countType db.scans ScanType.success : ℚ)
      / (db.scans.length : ℚ)) * 100)), by simp [stats, successRate, hpos],
      by simp [stats, successRate, hpos, SuccessRate.value], ?_⟩
    set n : ℤ := toFixed2 (fl (fl ((countType db.scans ScanType.success : ℚ)
      / (db.scans.length : ℚ)) * 100)) with hn
    set s : ℕ := countType db.scans ScanType.success with hs
    set t : ℕ := db.scans.length with ht
    have htq : (0 : ℚ) < t := by exact_mod_cast hpos
    have hbq : 2 * |(n : ℚ) * (t : ℚ) - 10000 * (s : ℚ)| ≤ (t : ℚ) := by exact_mod_cast hb
    have hrw : (n : ℚ) / 100 - (s : ℚ) / (t : ℚ) * 100
        = ((n : ℚ) * (t : ℚ) - 10000 * (s : ℚ)) / (100 * (t : ℚ)) := by
      field_simp
      ring
    rw [hrw, abs_div, abs_of_pos (by positivity : (0 : ℚ) < 100 * (t : ℚ)),
      div_le_div_iff₀ (by positivity) (by norm_num)]
    linarith
  · intro hzero
    simp [stats, successRate, hzero]

theorem stats_success_rate_witness :
    IsDoubleRounding id
      ∧ historyDb.scans.length < 2 ^ 31
      ∧ (0 < historyDb.scans.length →
          ∃ n : ℤ, (stats id 0 historyDb).2.successRate = SuccessRate.fixed2 n
            ∧ (stats id 0 historyDb).2.successRate.value = (n : ℚ) / 100
            ∧ |(n : ℚ) / 100
                - (countType historyDb.scans ScanType.success : ℚ)
                    / (historyDb.scans.length : ℚ) * 100|
              ≤ 1 / 200)
      ∧ (stats id 0 demoDb).2.successRate = SuccessRate.number 0 :=
  ⟨isDoubleRounding_id, by decide,
    (stats_success_rate id 0 historyDb isDoubleRounding_id (by decide)).2.2.1,
    (stats_success_rate id 0 demoDb isDoubleRounding_id (by decide)).2.2.2 rfl⟩

/-- C14.  With fewer than `2 ^ 31` rows and doubles rounded to nearest, the
success rate returned by the statistics lies between 0 and 100; computing the
statistics leaves the database (scan history and registry) as it was, and a
second read on the database the first one left returns the same success
rate. -/
theorem stats_rate_in_range_and_pure (fl : ℚ → ℚ) (today today2 : Nat) (db : Db)
    (hfl : IsDoubleRounding fl) (hrows : db.scans.length < 2 ^ 31) :
    0 ≤ (stats fl today db).2.successRate.value
      ∧ (stats fl today db).2.successRate.value ≤ 100
      ∧ (stats fl today db).1 = db
      ∧ (stats fl today2 (stats fl today db).1).2.successRate
          = (stats fl today db).2.successRate := by
  refine ⟨?_, ?_, rfl, rfl⟩
  · rcases Nat.eq_zero_or_pos db.scans.length with hzero | hpos
    · simp [stats, successRate, hzero, SuccessRate.value]
    · obtain ⟨h0, -⟩ := toFixed2_rate_bounds fl hfl (countType db.scans ScanType.success)
        db.scans.length hpos (countType_le_length _ _) hrows
      simp only [stats, successRate, hpos, if_true, SuccessRate.value]
      have : (0 : ℚ) ≤ (toFixed2 (fl (fl ((countType db.scans ScanType.success : ℚ)
          / (db.scans.length : ℚ)) * 100)) : ℚ) := by exact_mod_cast h0
      positivity
  · rcases Nat.eq_zero_or_pos db.scans.length with hzero | hpos
    · simp [stats, successRate, hzero, SuccessRate.value]
    · obtain ⟨-, hb⟩ := toFixed2_rate_bounds fl hfl (countType db.scans ScanType.success)
        db.scans.length hpos (countType_le_length _ _) hrows
      have hst : countType db.scans ScanType.success ≤ db.scans.length :=
        countType_le_length _ _
      simp only [stats, successRate, hpos, if_true, SuccessRate.value]
      set n : ℤ := toFixed2 (fl (fl ((countType db.scans ScanType.success : ℚ)
        / (db.scans.length : ℚ)) * 100)) with hn
      have hle : n ≤ 10000 := by
        have h1 := le_abs_self
          (n * (db.scans.length : ℤ) - 10000 * (countType db.scans ScanType.success : ℤ))
        have hs : (countType db.scans ScanType.success : ℤ) ≤ (db.scans.length : ℤ) := by
          exact_mod_cast hst
        have ht : (0 : ℤ) < (db.scans.length : ℤ) := by exact_mod_cast hpos
        by_contra hcon
        push_neg at hcon
        have : 10001 * (db.scans.length : ℤ) ≤ n * (db.scans.length : ℤ) :=
          mul_le_mul_of_nonneg_right (by omega) ht.le
        omega
      have : (n : ℚ) ≤ 10000 := by exact_mod_cast hle
      linarith

theorem stats_rate_in_range_and_pure_witness :
    IsDoubleRounding id
      ∧ historyDb.scans.length < 2 ^ 31
      ∧ 0 ≤ (stats id 0 historyDb).2.successRate.value
      ∧ (stats id 0 historyDb).2.successRate.value ≤ 100
      ∧ (stats id 0 historyDb).1 = historyDb
      ∧ (stats id 86400000 (stats id 0 historyDb).1).2.successRate
          = (stats id 0 historyDb).2.successRate :=
  ⟨isDoubleRounding_id, by decide,
    stats_rate_in_range_and_pure id 0 86400000 historyDb isDoubleRounding_id (by decide)⟩

/-! ## History -/

/-- The stable sort orders by `scannedAt`, newest first. -/
theorem orderByScannedAtDesc_sorted (rows : List ScanHistory) :
    (orderByScannedAtDesc rows).Pairwise (fun a b => b.scannedAt ≤ a.scannedAt) := by
  haveI : IsTotal ScanHistory (fun a b => b.scannedAt ≤ a.scannedAt) :=
    ⟨fun a b => le_total b.scannedAt a.scannedAt⟩
  haveI : IsTrans ScanHistory (fun a b => b.scannedAt ≤ a.scannedAt) :=
    ⟨fun _ _ _ hab hbc => le_trans hbc hab⟩
  exact List.sorted_insertionSort (fun a b : ScanHistory => b.scannedAt ≤ a.scannedAt) rows

/-- The stable sort is an order the clause `ORDER BY scanned_at DESC` allows. -/
theorem isOrderBy_stable : IsOrderByScannedAtDesc (fun _ _ => orderByScannedAtDesc) :=
  ⟨fun _ _ rows => List.perm_insertionSort _ rows,
    fun _ _ rows => orderByScannedAtDesc_sorted rows⟩

/-- The order that puts the row inserted last first among equal timestamps is
an order the clause `ORDER BY scanned_at DESC` allows. -/
theorem isOrderBy_newestFirst :
    IsOrderByScannedAtDesc (fun _ _ => orderByScannedAtDescNewestFirst) :=
  ⟨fun _ _ rows => (List.perm_insertionSort _ rows.reverse).trans (List.reverse_perm rows),
    fun _ _ rows => orderByScannedAtDesc_sorted rows.reverse⟩

/-- C15.  For a page number and a page size of at least 1, sizes below `2 ^ 53`,
doubles rounded to nearest and whatever order the database gives to rows with
equal timestamps: the history called with the name of an outcome kind `t` as
filter returns only rows of the table whose kind is `t`, ordered by timestamp
descending; `totalCount` is the number of rows of kind `t`, `totalPages` is the
ceiling of `totalCount / pageSize`, and the database is left as it was. -/
theorem history_filtered_sorted_counted (env : HistoryEnv) (q : HistoryQuery) (db : Db)
    (t : ScanType) (hfl : IsDoubleRounding env.fl)
    (horder : IsOrderByScannedAtDesc env.order)
    (hpage : 0 < q.page.getD 1) (hlimit : 0 < q.limit.getD 50)
    (hlimit2 : q.limit.getD 50 < 2 ^ 53) (hrows : db.scans.length < 2 ^ 53)
    (hfilter : typeFilter q.type = some t) :
    ∃ body, (history env q db).2 = HistoryResponse.ok body
      ∧ (∀ row ∈ body.scans, row.scan ∈ db.scans ∧ row.scan.scanType = t)
      ∧ (body.scans.map (fun row => row.scan)).Pairwise
          (fun a b => b.scannedAt ≤ a.scannedAt)
      ∧ body.totalCount = countType db.scans t
      ∧ body.totalPages = some ⌈(body.totalCount : ℚ) / ((q.limit.getD 50 : ℕ) : ℚ)⌉
      ∧ (history env q db).1 = db := by
  have hp : ¬ (q.page.getD 1 = 0 ∨ q.limit.getD 50 = 0) := by omega
  have hm : matchesFilter (some t) = fun r => r.scanType == t := rfl
  have hcount : (db.scans.filter (matchesFilter (some t))).length = countType db.scans t := by
    simp [countType, hm]
  have hcount53 : countType db.scans t < 2 ^ 53 :=
    lt_of_le_of_lt (countType_le_length _ _) hrows
  have hbody : history env q db = (db, HistoryResponse.ok
      { scans := (((env.order (q.limit.getD 50)
            (parseIntOfNumber env.expDigit
              (offsetNumber env.fl (q.page.getD 1) (q.limit.getD 50)))
            (db.scans.filter (matchesFilter (some t)))).drop
            (parseIntOfNumber env.expDigit
              (offsetNumber env.fl (q.page.getD 1) (q.limit.getD 50)))).take
            (q.limit.getD 50)).map (fun r =>
          { scan := r, employee := r.employeeId.bind (findByPk db.employees) })
        totalCount := countType db.scans t
        totalPages := some ⌈env.fl ((countType db.scans t : ℚ) / ((q.limit.getD 50 : ℕ) : ℚ))⌉
        currentPage := env.fl ((q.page.getD 1 : ℕ) : ℚ) }) := by
    simp only [history, hp, if_false, hfilter, hcount]
  rw [hbody]
  refine ⟨_, rfl, ?_, ?_, rfl, ?_, rfl⟩
  · intro row hrow
    simp only [List.mem_map] at hrow
    obtain ⟨r, hr, rfl⟩ := hrow
    have hr2 := (horder.perm _ _ _).subset
      ((List.drop_sublist _ _).subset ((List.take_sublist _ _).subset hr))
    simp only [List.mem_filter, matchesFilter, beq_iff_eq] at hr2
    exact hr2
  · simp only [List.map_map]
    have hid : ((fun row : HistoryRow => row.scan) ∘ fun r : ScanHistory =>
        ({ scan := r, employee := r.employeeId.bind (findByPk db.employees) } : HistoryRow))
        = id := rfl
    rw [hid, List.map_id]
    exact ((horder.sorted _ _ _).sublist (List.drop_sublist _ _)).sublist
      (List.take_sublist _ _)
  · simp only [Option.some.injEq]
    exact ceil_fl_div env.fl hfl _ _ hlimit hcount53 hlimit2

theorem history_filtered_sorted_counted_witness :
    IsDoubleRounding historyEnv.fl
      ∧ IsOrderByScannedAtDesc historyEnv.order
      ∧ typeFilter historyQueryFailed.type = some ScanType.failed
      ∧ ∃ body, (history historyEnv historyQueryFailed historyDb).2 = HistoryResponse.ok body
        ∧ (∀ row ∈ body.scans, row.scan ∈ historyDb.scans
            ∧ row.scan.scanType = ScanType.failed)
        ∧ (body.scans.map (fun row => row.scan)).Pairwise
            (fun a b => b.scannedAt ≤ a.scannedAt)
        ∧ body.totalCount = countType historyDb.scans ScanType.failed
        ∧ body.totalPages
            = some ⌈(body.totalCount : ℚ) / ((historyQueryFailed.limit.getD 50 : ℕ) : ℚ)⌉
        ∧ (history historyEnv historyQueryFailed historyDb).1 = historyDb :=
  ⟨isDoubleRounding_id, isOrderBy_stable, rfl,
    history_filtered_sorted_counted historyEnv historyQueryFailed historyDb ScanType.failed
      isDoubleRounding_id isOrderBy_stable (by decide) (by decide) (by decide) (by decide) rfl⟩

/-! ## Enrollment: missing fields and encoding failures -/

/-- When no employee has the identity code, the pre-check of `createEmployee`
finds nothing. -/
theorem findOne_fresh (employees : List Employee) (code : String)
    (hfresh : ∀ e ∈ employees, e.employeeId ≠ code) :
    findOneByEmployeeId employees (some code) = Except.ok none
      ∧ employees.any (fun e => e.employeeId == code) = false := by
  constructor
  · simp only [findOneByEmployeeId]
    congr 1
    rw [List.find?_eq_none]
    intro e he
    simpa using hfresh e he
  · rw [List.any_eq_false]
    intro e he
    simpa using hfresh e he

/-- C21 (counterexample).  An enrollment whose name is the empty string is
accepted: the answer is 201 and the registry holds a subject with an empty
name.  An enrollment that lacks the name but carries a photo calls the oracle
before it fails. -/
theorem empty_name_is_enrolled :
    enrollEmptyName.body.name = some ""
      ∧ (createEmployee enrollEmptyName enrollEnvOk demoDb).status = 201
      ∧ (createEmployee enrollEmptyName enrollEnvOk demoDb).db.employees.map (fun e => e.name)
          = ["John Doe", ""]
      ∧ enrollMissingName.body.name = none
      ∧ (createEmployee enrollMissingName enrollEnvNoFace demoDb).oracleCalls = 1
      ∧ (createEmployee enrollMissingName enrollEnvNoFace demoDb).status = 500 := by
  decide

/-- C21 (amended).  Enrollment with any of identity code, name, category,
region or date of birth not sent creates no subject; the answer is the generic
failure (status 500, `Failed to create employee`), or the duplicate answer
(status 400) when the identity code is already taken. -/
theorem missing_field_creates_no_subject (req : EnrollRequest) (env : EnrollEnv) (db : Db)
    (hmiss : req.body.employeeId = none ∨ req.body.name = none ∨ req.body.specialty = none
      ∨ req.body.city = none ∨ req.body.birthDate = none) :
    (createEmployee req env db).db = db
      ∧ (((createEmployee req env db).status = 500
            ∧ (createEmployee req env db).body
                = EmployeeBodyOut.error "Failed to create employee")
          ∨ ((createEmployee req env db).status = 400
            ∧ (createEmployee req env db).body
                = EmployeeBodyOut.error "Employee ID already exists")) := by
  rcases hcode : req.body.employeeId with _ | code
  · simp [createEmployee, findOneByEmployeeId, hcode]
  · cases hfind : db.employees.find? (fun e => e.employeeId == code) with
    | some x => simp [createEmployee, findOneByEmployeeId, hcode, hfind]
    | none =>
      simp only [createEmployee, findOneByEmployeeId, hcode, hfind, Employee.create]
      rcases hn : req.body.name with _ | a <;> rcases hs : req.body.specialty with _ | b <;>
        rcases hc : req.body.city with _ | c <;> rcases hb : req.body.birthDate with _ | d <;>
        simp [hcode, hn, hs, hc, hb] at hmiss ⊢

theorem missing_field_creates_no_subject_witness :
    (enrollMissingName.body.employeeId = none ∨ enrollMissingName.body.name = none
        ∨ enrollMissingName.body.specialty = none ∨ enrollMissingName.body.city = none
        ∨ enrollMissingName.body.birthDate = none)
      ∧ (createEmployee enrollMissingName enrollEnvNoFace demoDb).db = demoDb
      ∧ (createEmployee enrollMissingName enrollEnvNoFace demoDb).status = 500 :=
  ⟨Or.inr (Or.inl rfl),
    (missing_field_creates_no_subject enrollMissingName enrollEnvNoFace demoDb
      (Or.inr (Or.inl rfl))).1, by decide⟩

/-- C22.  Enrollment with a photo, all five fields and a fresh identity code,
for which the oracle's encode call fails or returns no usable encoding, still
answers 201 with the created subject; the subject is appended to the registry
with no encoding stored and with the photo as its image. -/
theorem enrollment_survives_encode_failure (req : EnrollRequest) (env : EnrollEnv) (db : Db)
    (file : UploadedFile) (code name specialty city birthDate : String)
    (hfile : req.file = some file)
    (hbody : req.body =
      { employeeId := some code, name := some name, specialty := some specialty,
        city := some city, birthDate := some birthDate })
    (hfresh : ∀ e ∈ db.employees, e.employeeId ≠ code)
    (hins : env.insertConflict = false)
    (henc : (∃ msg, env.encode = Except.error msg)
      ∨ ∃ data, env.encode = Except.ok data
          ∧ (data.success = false ∨ truthyStr data.face_encoding = false)) :
    ∃ e, (createEmployee req env db).status = 201
      ∧ (createEmployee req env db).body = EmployeeBodyOut.employee e
      ∧ (createEmployee req env db).db.employees = db.employees ++ [e]
      ∧ e.faceEncoding = none
      ∧ e.employeeId = code
      ∧ e.imagePath = some ("employees/" ++ file.filename)
      ∧ (createEmployee req env db).oracleCalls = 1 := by
  obtain ⟨h1, h2⟩ := findOne_fresh db.employees code hfresh
  have hcode : req.body.employeeId = some code := by rw [hbody]
  have henc2 : encodePhoto req env = (none, 1) := by
    rcases henc with ⟨msg, hm⟩ | ⟨data, hd, hbad⟩
    · simp [encodePhoto, hfile, hm]
    · rcases hbad with hbad | hbad <;> simp [encodePhoto, hfile, hd, hbad]
  simp [createEmployee, hcode, h1, henc2, Employee.create, hbody, hins, h2, hfile]

theorem enrollment_survives_encode_failure_witness :
    enrollWithPhoto.file = some newPhoto
      ∧ (∀ e ∈ demoDb.employees, e.employeeId ≠ "EMP007")
      ∧ ∃ e, (createEmployee enrollWithPhoto enrollEnvEncodeFails demoDb).status = 201
        ∧ (createEmployee enrollWithPhoto enrollEnvEncodeFails demoDb).body
            = EmployeeBodyOut.employee e
        ∧ (createEmployee enrollWithPhoto enrollEnvEncodeFails demoDb).db.employees
            = demoDb.employees ++ [e]
        ∧ e.faceEncoding = none
        ∧ e.employeeId = "EMP007"
        ∧ e.imagePath = some ("employees/" ++ newPhoto.filename)
        ∧ (createEmployee enrollWithPhoto enrollEnvEncodeFails demoDb).oracleCalls = 1 :=
  ⟨rfl, by decide,
    enrollment_survives_encode_failure enrollWithPhoto enrollEnvEncodeFails demoDb newPhoto
      "EMP007" "Ada Byron" "Analyst" "London" "1985-12-10" rfl rfl (by decide) rfl
      (Or.inl ⟨_, rfl⟩)⟩

/-! ## Updates -/

theorem applyUpdate_id (v : UpdateValues) (now : Nat) (x : Employee) :
    (applyUpdate v now x).id = x.id := by
  unfold applyUpdate
  dsimp only
  split <;> rfl

theorem applyUpdate_employeeId (v : UpdateValues) (now : Nat) (x : Employee) :
    (applyUpdate v now x).employeeId = x.employeeId := by
  unfold applyUpdate
  dsimp only
  split <;> rfl

theorem applyUpdate_faceEncoding (v : UpdateValues) (now : Nat) (x : Employee) :
    (applyUpdate v now x).faceEncoding = v.faceEncoding.getD x.faceEncoding := by
  unfold applyUpdate
  dsimp only
  split
  · next h => exact (congrArg Employee.faceEncoding h).symm
  · rfl

theorem applyUpdate_imagePath (v : UpdateValues) (now : Nat) (x : Employee) :
    (applyUpdate v now x).imagePath
      = (match v.imagePath with
        | some path => some path
        | none => x.imagePath) := by
  unfold applyUpdate
  dsimp only
  split
  · next h => exact (congrArg Employee.imagePath h).symm
  · rfl

/-- After `employee.update`, looking a key up gives the updated version of the
row that the key gave before. -/
theorem findByPk_update (employees : List Employee) (k id : Nat) (v : UpdateValues)
    (now : Nat) :
    findByPk (employees.map (fun x => if x.id = k then applyUpdate v now x else x)) id
      = (findByPk employees id).map (fun x => if x.id = k then applyUpdate v now x else x) := by
  induction employees with
  | nil => rfl
  | cons a l ih =>
    unfold findByPk at ih ⊢
    simp only [List.map_cons, List.find?_cons]
    have hid : (if a.id = k then applyUpdate v now a else a).id = a.id := by
      split
      · exact applyUpdate_id v now a
      · rfl
    rw [hid]
    cases h : (a.id == id)
    · simpa using ih
    · simp

/-- C23.  After an update of an existing subject, the subject is still found
under its key.  Without a new photo its stored encoding and its stored-image
reference are what they were and the oracle is not called; and whenever the
stored-image reference differs from what it was, a new photo was supplied and
the reference is that photo. -/
theorem update_without_photo_keeps_encoding_and_image (req : UpdateRequest)
    (env : EnrollEnv) (db : Db) (e : Employee)
    (hfind : findByPk db.employees req.id = some e) :
    ∃ e2, findByPk (updateEmployee req env db).db.employees req.id = some e2
      ∧ e2.id = e.id
      ∧ (req.file = none →
          e2.faceEncoding = e.faceEncoding ∧ e2.imagePath = e.imagePath
            ∧ (updateEmployee req env db).oracleCalls = 0)
      ∧ (e2.imagePath ≠ e.imagePath →
          ∃ f, req.file = some f ∧ e2.imagePath = some ("employees/" ++ f.filename)) := by
  have hid : e.id = req.id := (findByPk_some db.employees req.id e hfind).2
  refine ⟨applyUpdate
    { name := req.body.name, specialty := req.body.specialty, city := req.body.city,
      birthDate := req.body.birthDate,
      imagePath := req.file.map (fun f => "employees/" ++ f.filename),
      faceEncoding := some (reencodePhoto req.file env e).1 } env.now e, ?_, ?_, ?_, ?_⟩
  · simp only [updateEmployee, hfind, Employee.update]
    rw [findByPk_update, hfind]
    simp
  · exact applyUpdate_id _ _ _
  · intro hnone
    refine ⟨?_, ?_, ?_⟩
    · rw [applyUpdate_faceEncoding]
      simp [reencodePhoto, hnone]
    · rw [applyUpdate_imagePath]
      simp [hnone]
    · simp [updateEmployee, hfind, reencodePhoto, hnone, Employee.update]
  · intro hne
    rw [applyUpdate_imagePath] at hne ⊢
    rcases hfile : req.file with _ | f
    · simp [hfile] at hne
    · exact ⟨f, rfl, by simp⟩

theorem update_without_photo_keeps_encoding_and_image_witness :
    findByPk staffDb.employees updateNoPhoto.id = some janeSmith
      ∧ ∃ e2, findByPk (updateEmployee updateNoPhoto enrollEnvOk staffDb).db.employees
            updateNoPhoto.id = some e2
        ∧ e2.id = janeSmith.id
        ∧ (updateNoPhoto.file = none →
            e2.faceEncoding = janeSmith.faceEncoding ∧ e2.imagePath = janeSmith.imagePath
              ∧ (updateEmployee updateNoPhoto enrollEnvOk staffDb).oracleCalls = 0)
        ∧ (e2.imagePath ≠ janeSmith.imagePath →
            ∃ f, updateNoPhoto.file = some f
              ∧ e2.imagePath = some ("employees/" ++ f.filename)) :=
  ⟨rfl, update_without_photo_keeps_encoding_and_image updateNoPhoto enrollEnvOk staffDb
    janeSmith rfl⟩

/-- C30.  Updating an existing subject with a new photo for which the encode
call fails or returns no usable encoding answers 200 with the updated subject;
its stored-image reference is the new photo and its stored encoding is the
previous one. -/
theorem update_with_failed_encoding (req : UpdateRequest) (env : EnrollEnv) (db : Db)
    (e : Employee) (file : UploadedFile)
    (hfind : findByPk db.employees req.id = some e) (hfile : req.file = some file)
    (henc : (∃ msg, env.encode = Except.error msg)
      ∨ ∃ data, env.encode = Except.ok data
          ∧ (data.success = false ∨ truthyStr data.face_encoding = false)) :
    ∃ e2, (updateEmployee req env db).status = 200
      ∧ (updateEmployee req env db).body = EmployeeBodyOut.employee e2
      ∧ findByPk (updateEmployee req env db).db.employees req.id = some e2
      ∧ e2.imagePath = some ("employees/" ++ file.filename)
      ∧ e2.faceEncoding = e.faceEncoding
      ∧ (updateEmployee req env db).oracleCalls = 1 := by
  have hid : e.id = req.id := (findByPk_some db.employees req.id e hfind).2
  have henc2 : reencodePhoto req.file env e = (e.faceEncoding, 1) := by
    rcases henc with ⟨msg, hm⟩ | ⟨data, hd, hbad⟩
    · simp [reencodePhoto, hfile, hm]
    · rcases hbad with hbad | hbad <;> simp [reencodePhoto, hfile, hd, hbad]
  rw [hfile] at henc2
  refine ⟨applyUpdate
    { name := req.body.name, specialty := req.body.specialty, city := req.body.city,
      birthDate := req.body.birthDate,
      imagePath := some ("employees/" ++ file.filename),
      faceEncoding := some e.faceEncoding } env.now e, ?_, ?_, ?_, ?_, ?_, ?_⟩
  · simp [updateEmployee, hfind, hfile, henc2]
  · simp [updateEmployee, hfind, hfile, henc2, Employee.update]
  · simp only [updateEmployee, hfind, hfile, henc2, Employee.update, Option.map_some']
    rw [findByPk_update, hfind]
    simp
  · rw [applyUpdate_imagePath]
  · rw [applyUpdate_faceEncoding]
    rfl
  · simp [updateEmployee, hfind, hfile, henc2]

theorem update_with_failed_encoding_witness :
    findByPk staffDb.employees updateWithPhoto.id = some janeSmith
      ∧ updateWithPhoto.file = some newPhoto
      ∧ ∃ e2, (updateEmployee updateWithPhoto enrollEnvEncodeFails staffDb).status = 200
        ∧ (updateEmployee updateWithPhoto enrollEnvEncodeFails staffDb).body
            = EmployeeBodyOut.employee e2
        ∧ findByPk (updateEmployee updateWithPhoto enrollEnvEncodeFails staffDb).db.employees
            updateWithPhoto.id = some e2
        ∧ e2.imagePath = some ("employees/" ++ newPhoto.filename)
        ∧ e2.faceEncoding = janeSmith.faceEncoding
        ∧ (updateEmployee updateWithPhoto enrollEnvEncodeFails staffDb).oracleCalls = 1 :=
  ⟨rfl, rfl,
    update_with_failed_encoding updateWithPhoto enrollEnvEncodeFails staffDb janeSmith
      newPhoto rfl rfl (Or.inl ⟨_, rfl⟩)⟩

/-! ## Identity codes in the registry -/

/-- `Employee.create` either fails or appends a row that carries the next key
and an identity code that no row has. -/
theorem Employee.create_ok (db db1 : Db) (v : EmployeeValues) (conflict : Bool) (now : Nat)
    (row : Employee) (h : Employee.create db v conflict now = Except.ok (db1, row)) :
    db1 = { db with employees := db.employees ++ [row],
                    nextEmployeeId := db.nextEmployeeId + 1 }
      ∧ row.id = db.nextEmployeeId
      ∧ ∀ e ∈ db.employees, e.employeeId ≠ row.employeeId := by
  unfold Employee.create at h
  split at h
  · next employeeId name specialty city birthDate _ _ _ _ _ =>
    split at h
    · exact Except.noConfusion h
    · next hc =>
      simp only [Except.ok.injEq, Prod.mk.injEq] at h
      obtain ⟨h1, h2⟩ := h
      subst h2
      refine ⟨h1.symm, rfl, ?_⟩
      intro e he
      simp only [Bool.or_eq_true, not_or, Bool.not_eq_true, List.any_eq_false] at hc
      simpa using hc.2 e he
  · exact Except.noConfusion h

/-- The four shapes of the database after one registry operation. -/
theorem registryStep_cases (db : Db) (op : RegistryOp) :
    registryStep db op = db
      ∨ (∃ row, registryStep db op
            = { db with employees := db.employees ++ [row],
                        nextEmployeeId := db.nextEmployeeId + 1 }
          ∧ row.id = db.nextEmployeeId
          ∧ ∀ e ∈ db.employees, e.employeeId ≠ row.employeeId)
      ∨ (∃ k v now, registryStep db op
            = { db with employees := db.employees.map (fun x =>
                  if x.id = k then applyUpdate v now x else x) })
      ∨ (∃ k scans, registryStep db op
            = { db with employees := db.employees.filter (fun e => e.id != k),
                        scans := scans }) := by
  cases op with
  | create req env =>
    simp only [registryStep, createEmployee]
    split
    · exact Or.inl rfl
    · exact Or.inl rfl
    · split
      · next db1 employee hc =>
        obtain ⟨h1, h2, h3⟩ := Employee.create_ok _ _ _ _ _ _ hc
        exact Or.inr (Or.inl ⟨employee, h1, h2, h3⟩)
      · exact Or.inl rfl
  | update req env =>
    simp only [registryStep, updateEmployee]
    split
    · exact Or.inl rfl
    · next employee _ => exact Or.inr (Or.inr (Or.inl ⟨employee.id, _, _, rfl⟩))
  | faceEncoding id value now =>
    simp only [registryStep, updateFaceEncoding]
    split
    · exact Or.inl rfl
    · next employee _ => exact Or.inr (Or.inr (Or.inl ⟨employee.id, _, _, rfl⟩))
  | delete id =>
    simp only [registryStep, deleteEmployee]
    split
    · exact Or.inl rfl
    · next employee _ => exact Or.inr (Or.inr (Or.inr ⟨employee.id, _, rfl⟩))

theorem map_update_employeeId (l : List Employee) (k : Nat) (v : UpdateValues) (now : Nat) :
    (l.map (fun x => if x.id = k then applyUpdate v now x else x)).map (fun e => e.employeeId)
      = l.map (fun e => e.employeeId) := by
  rw [List.map_map]
  apply List.map_congr_left
  intro x _
  simp only [Function.comp]
  split
  · exact applyUpdate_employeeId v now x
  · rfl

theorem map_update_id (l : List Employee) (k : Nat) (v : UpdateValues) (now : Nat) :
    (l.map (fun x => if x.id = k then applyUpdate v now x else x)).map (fun e => e.id)
      = l.map (fun e => e.id) := by
  rw [List.map_map]
  apply List.map_congr_left
  intro x _
  simp only [Function.comp]
  split
  · exact applyUpdate_id v now x
  · rfl

/-- One registry operation never lowers the auto-increment counter. -/
theorem registryStep_next_le (db : Db) (op : RegistryOp) :
    db.nextEmployeeId ≤ (registryStep db op).nextEmployeeId := by
  rcases registryStep_cases db op with h | ⟨row, h, -, -⟩ | ⟨k, v, now, h⟩ | ⟨k, scans, h⟩ <;>
    simp [h]

/-- Every row after one registry operation either continues a row of before,
with the same key and the same identity code, or carries a fresh key. -/
theorem registryStep_origin (db : Db) (op : RegistryOp) (e2 : Employee)
    (h2 : e2 ∈ (registryStep db op).employees) :
    (∃ e ∈ db.employees, e.id = e2.id ∧ e.employeeId = e2.employeeId)
      ∨ db.nextEmployeeId ≤ e2.id := by
  rcases registryStep_cases db op with h | ⟨row, h, hid, -⟩ | ⟨k, v, now, h⟩ | ⟨k, scans, h⟩ <;>
    rw [h] at h2
  · exact Or.inl ⟨e2, h2, rfl, rfl⟩
  · simp only [List.mem_append, List.mem_singleton] at h2
    rcases h2 with h2 | h2
    · exact Or.inl ⟨e2, h2, rfl, rfl⟩
    · exact Or.inr (by rw [h2, hid])
  · simp only [List.mem_map] at h2
    obtain ⟨x, hx, rfl⟩ := h2
    refine Or.inl ⟨x, hx, ?_, ?_⟩
    · split
      · exact (applyUpdate_id v now x).symm
      · rfl
    · split
      · exact (applyUpdate_employeeId v now x).symm
      · rfl
  · exact Or.inl ⟨e2, (List.mem_filter.mp h2).1, rfl, rfl⟩

/-- One registry operation keeps identity codes and keys unique and keys below
the counter. -/
theorem registryStep_ok (db : Db) (op : RegistryOp) (h : RegistryOk db) :
    RegistryOk (registryStep db op) := by
  obtain ⟨hcodes, hids, hlt⟩ := h
  rcases registryStep_cases db op with h | ⟨row, h, hid, hfresh⟩ | ⟨k, v, now, h⟩
    | ⟨k, scans, h⟩ <;> rw [h]
  · exact ⟨hcodes, hids, hlt⟩
  · refine ⟨?_, ?_, ?_⟩
    · simp only [List.map_append, List.map_cons, List.map_nil]
      rw [List.nodup_append]
      refine ⟨hcodes, List.nodup_singleton _, ?_⟩
      intro c hc hc2
      simp only [List.mem_map] at hc
      obtain ⟨e, he, rfl⟩ := hc
      simp only [List.mem_singleton] at hc2
      exact hfresh e he hc2
    · simp only [List.map_append, List.map_cons, List.map_nil]
      rw [List.nodup_append]
      refine ⟨hids, List.nodup_singleton _, ?_⟩
      intro c hc hc2
      simp only [List.mem_map] at hc
      obtain ⟨e, he, rfl⟩ := hc
      simp only [List.mem_singleton] at hc2
      have := hlt e he
      omega
    · intro e he
      simp only [List.mem_append, List.mem_singleton] at he
      rcases he with he | he
      · have := hlt e he
        simp only
        omega
      · simp only [he, hid]
        omega
  · refine ⟨?_, ?_, ?_⟩
    · simp only
      rw [map_update_employeeId]
      exact hcodes
    · simp only
      rw [map_update_id]
      exact hids
    · intro e he
      simp only [List.mem_map] at he
      obtain ⟨x, hx, rfl⟩ := he
      have := hlt x hx
      split
      · rw [applyUpdate_id]; exact this
      · exact this
  · refine ⟨?_, ?_, ?_⟩
    · exact hcodes.sublist ((List.filter_sublist _).map _)
    · exact hids.sublist ((List.filter_sublist _).map _)
    · intro e he
      exact hlt e (List.mem_filter.mp he).1

theorem registryRun_next_le (db : Db) (ops : List RegistryOp) :
    db.nextEmployeeId ≤ (registryRun db ops).nextEmployeeId := by
  induction ops generalizing db with
  | nil => exact le_refl _
  | cons op rest ih => exact le_trans (registryStep_next_le db op) (ih (registryStep db op))

theorem registryRun_origin (db : Db) (ops : List RegistryOp) (e2 : Employee)
    (h2 : e2 ∈ (registryRun db ops).employees) :
    (∃ e ∈ db.employees, e.id = e2.id ∧ e.employeeId = e2.employeeId)
      ∨ db.nextEmployeeId ≤ e2.id := by
  induction ops generalizing db with
  | nil => exact Or.inl ⟨e2, h2, rfl, rfl⟩
  | cons op rest ih =>
    rcases ih (registryStep db op) h2 with ⟨e1, he1, hid1, hcode1⟩ | hfresh
    · rcases registryStep_origin db op e1 he1 with ⟨e, he, hid, hcode⟩ | hfresh
      · exact Or.inl ⟨e, he, hid.trans hid1, hcode.trans hcode1⟩
      · exact Or.inr (hid1 ▸ hfresh)
    · exact Or.inr (le_trans (registryStep_next_le db op) hfresh)

theorem registryRun_ok (db : Db) (ops : List RegistryOp) (h : RegistryOk db) :
    RegistryOk (registryRun db ops) := by
  induction ops generalizing db with
  | nil => exact h
  | cons op rest ih => exact ih (registryStep db op) (registryStep_ok db op h)

/-- C24.  From a registry with unique identity codes and keys, every registry
reached through any sequence of create, update, face-encoding overwrite and
delete operations has unique identity codes (and keys), and a subject of the
initial registry that is still present, under its key, has the identity code it
had. -/
theorem identity_codes_unique_and_immutable (db0 : Db) (ops : List RegistryOp)
    (h0 : RegistryOk db0) :
    ((registryRun db0 ops).employees.map (fun e => e.employeeId)).Nodup
      ∧ RegistryOk (registryRun db0 ops)
      ∧ ∀ e ∈ db0.employees, ∀ e2 ∈ (registryRun db0 ops).employees,
          e2.id = e.id → e2.employeeId = e.employeeId := by
  refine ⟨(registryRun_ok db0 ops h0).1, registryRun_ok db0 ops h0, ?_⟩
  intro e he e2 he2 hid
  rcases registryRun_origin db0 ops e2 he2 with ⟨e1, he1, hid1, hcode1⟩ | hfresh
  · have heq : e1 = e := by
      have hinj := List.inj_on_of_nodup_map h0.2.1
      exact hinj he1 he (hid1.trans hid)
    rw [← hcode1, heq]
  · have := h0.2.2 e he
    omega

theorem identity_codes_unique_and_immutable_witness :
    RegistryOk staffDb
      ∧ ((registryRun staffDb
            [RegistryOp.create enrollDuplicate enrollEnvOk,
             RegistryOp.create enrollFresh enrollEnvOk,
             RegistryOp.update updateWithPhoto enrollEnvEncodeFails,
             RegistryOp.faceEncoding 1 (some (some "[0.5]")) 600,
             RegistryOp.delete 2]).employees.map (fun e => e.employeeId)).Nodup :=
  have h : RegistryOk staffDb := by
    refine ⟨by decide, by decide, ?_⟩
    intro e he
    simp only [staffDb, List.mem_cons, List.mem_singleton, List.not_mem_nil, or_false] at he
    rcases he with rfl | rfl <;> decide
  ⟨h, (identity_codes_unique_and_immutable staffDb _ h).1⟩

/-! ## Hard delete -/

/-- C25.  Hard-deleting an existing subject with key `id` removes it from the
registry and deletes no scan-history row: the history afterwards is the history
before, row by row, with the reference set to none on the rows that referenced
`id` and every other row as it was; kinds are unchanged, no row references `id`
any more, and the rows without a reference are the former ones plus the rows
that referenced `id`. -/
theorem delete_nulls_references_only (id : Nat) (db : Db) (e : Employee)
    (hfind : findByPk db.employees id = some e) :
    (∀ x ∈ (deleteEmployee id db).db.employees, x.id ≠ id)
      ∧ findByPk (deleteEmployee id db).db.employees id = none
      ∧ (deleteEmployee id db).db.scans
          = db.scans.map (fun r =>
              if r.employeeId = some id then { r with employeeId := none } else r)
      ∧ (deleteEmployee id db).db.scans.length = db.scans.length
      ∧ (deleteEmployee id db).db.scans.map (fun r => r.scanType)
          = db.scans.map (fun r => r.scanType)
      ∧ (∀ r ∈ (deleteEmployee id db).db.scans, r.employeeId ≠ some id)
      ∧ ((deleteEmployee id db).db.scans.filter (fun r => r.employeeId == none)).length
          = (db.scans.filter (fun r => r.employeeId == none)).length
            + (db.scans.filter (fun r => r.employeeId == some id)).length := by
  have hid : e.id = id := (findByPk_some db.employees id e hfind).2
  have hscans : (deleteEmployee id db).db.scans
      = db.scans.map (fun r =>
          if r.employeeId = some id then { r with employeeId := none } else r) := by
    simp [deleteEmployee, hfind, hid]
  have hemp : ∀ x ∈ (deleteEmployee id db).db.employees, x.id ≠ id := by
    intro x hx
    simp only [deleteEmployee, hfind, List.mem_filter, hid] at hx
    simpa using hx.2
  refine ⟨hemp, ?_, hscans, ?_, ?_, ?_, ?_⟩
  · cases h : findByPk (deleteEmployee id db).db.employees id with
    | none => rfl
    | some x =>
      obtain ⟨hx, hxid⟩ := findByPk_some _ _ _ h
      exact absurd hxid (hemp x hx)
  · rw [hscans, List.length_map]
  · rw [hscans, List.map_map]
    apply List.map_congr_left
    intro r _
    simp only [Function.comp]
    split <;> rfl
  · rw [hscans]
    intro r hr
    simp only [List.mem_map] at hr
    obtain ⟨r0, -, rfl⟩ := hr
    split
    · simp
    · assumption
  · rw [hscans]
    induction db.scans with
    | nil => rfl
    | cons a l ih =>
      simp only [List.map_cons, List.filter_cons]
      rcases ha : a.employeeId with _ | k
      · simp [ha, ih]; omega
      · by_cases hk : k = id
        · simp [ha, hk, ih]; omega
        · simp [ha, hk, ih]

theorem delete_nulls_references_only_witness :
    findByPk historyDb.employees 1 = some johnDoe
      ∧ (deleteEmployee 1 historyDb).db.employees = []
      ∧ (deleteEmployee 1 historyDb).db.scans
          = [{ oldSuccessRow with employeeId := none }, oldFailedRow, recentFailedRow]
      ∧ (deleteEmployee 1 historyDb).db.scans.length = historyDb.scans.length :=
  ⟨rfl, by decide, by decide,
    (delete_nulls_references_only 1 historyDb johnDoe rfl).2.2.2.1⟩

/-- C26 (counterexample).  A DELETE request for subject 1 that carries no
confirmation token is executed by the server: the subject is gone. -/
theorem delete_request_without_token_is_executed :
    (deleteRoute { id := 1, confirmationToken := none } demoDb).status = 200
      ∧ (deleteRoute { id := 1, confirmationToken := none } demoDb).db.employees = []
      ∧ demoDb.employees = [johnDoe] := by
  decide

/-- C26 (amended).  The dashboard sends the delete request only when the
operator accepted the confirmation and typed exactly `DELETE`; otherwise no
request is sent and the database is left as it was.  The server route reads no
token: its answer to a DELETE request is the same whatever token the request
carries. -/
theorem delete_confirmed_by_dashboard_only (dialog : DeleteDialog) (id : Nat) (db : Db) :
    ((handleDeleteEmployee dialog id db).db ≠ db →
        dialog.confirmed = true ∧ dialog.typed = some "DELETE")
      ∧ ((handleDeleteEmployee dialog id db).requestsSent ≠ 0 →
        dialog.confirmed = true ∧ dialog.typed = some "DELETE")
      ∧ (¬ (dialog.confirmed = true ∧ dialog.typed = some "DELETE") →
        handleDeleteEmployee dialog id db = { db := db, requestsSent := 0 })
      ∧ ((dialog.confirmed = true ∧ dialog.typed = some "DELETE") →
        handleDeleteEmployee dialog id db
          = { db := (deleteEmployee id db).db, requestsSent := 1 })
      ∧ ∀ token : Option String,
          deleteRoute { id := id, confirmationToken := token } db = deleteEmployee id db := by
  rcases dialog with ⟨confirmed, typed⟩
  by_cases hc : confirmed = true <;> by_cases ht : typed = some "DELETE" <;>
    simp [handleDeleteEmployee, deleteRoute, hc, ht]

/-! ## Kinds in the scan history -/

/-- No row written by one run of the recognize handler has kind `unknown`. -/
theorem newRows_noUnknown (req : Request) (env : Env) (db : Db) :
    NoUnknown (newRows req env db) := by
  intro r hr
  rcases env with ⟨oracle, io, now, emitNow, catchNow⟩
  rcases hfile : req.file with _ | file
  · simp [newRows, recognize, tryBlock, hfile] at hr
  rcases oracle with msg | ⟨recognized, employeeId, confidence⟩
  · simp [newRows, recognize, tryBlock, hfile, ScanHistory.create, catchValues] at hr
    subst hr
    simp
  by_cases hc : (recognized && truthyId employeeId) = true
  · cases hfind : findByPk db.employees (employeeId.getD 0) with
    | none =>
      rcases io with _ | _ | m <;>
        simp [newRows, recognize, tryBlock, hfile, recordAttempt, ScanHistory.create, respond,
          hc, hfind, catchValues] at hr <;> subst hr <;> simp
    | some e =>
      rcases recognized with _ | _
      · simp at hc
      rcases io with _ | _ | m <;>
        simp [newRows, recognize, tryBlock, hfile, recordAttempt, ScanHistory.create, respond,
          hc, hfind, catchValues] at hr
      · subst hr; simp
      · subst hr; simp
      · rcases hr with hr | hr <;> subst hr <;> simp
  · rcases recognized with _ | _ <;> rcases io with _ | _ | m <;>
      simp [newRows, recognize, tryBlock, hfile, recordAttempt, ScanHistory.create, respond,
        hc, catchValues] at hr
    all_goals first
      | (subst hr; simp)
      | (rcases hr with hr | hr <;> subst hr <;> simp)

/-- One operation on the scan history introduces no row of kind `unknown`. -/
theorem step_noUnknown (db : Db) (op : Op) (h : NoUnknown db.scans) :
    NoUnknown (step db op).scans := by
  cases op with
  | recognize req env =>
    intro r hr
    simp only [step] at hr
    rw [(recognize_appends req env db).1, List.mem_append] at hr
    rcases hr with hr | hr
    · exact h r hr
    · exact newRows_noUnknown req env db r hr
  | clearHistory q env =>
    intro r hr
    exact h r (clearHistory_scans_subset q env db r hr)
  | deleteEmployee id =>
    intro r hr
    simp only [step, deleteEmployee] at hr
    cases hfind : findByPk db.employees id with
    | none =>
      simp only [hfind] at hr
      exact h r hr
    | some e =>
      simp only [hfind, List.mem_map] at hr
      obtain ⟨r0, hr0, rfl⟩ := hr
      have := h r0 hr0
      split <;> exact this

theorem run_noUnknown (db : Db) (ops : List Op) (h : NoUnknown db.scans) :
    NoUnknown (run db ops).scans := by
  induction ops generalizing db with
  | nil => exact h
  | cons op rest ih => exact ih (step db op) (step_noUnknown db op h)

/-- Without rows of kind `unknown`, the `success` and the `failed` rows make up
the whole history. -/
theorem countType_add_of_noUnknown (scans : List ScanHistory) (h : NoUnknown scans) :
    countType scans ScanType.success + countType scans ScanType.failed = scans.length := by
  induction scans with
  | nil => rfl
  | cons a l ih =>
    have hl : NoUnknown l := fun r hr => h r (List.mem_cons_of_mem a hr)
    have ha := h a (List.mem_cons_self a l)
    have ih2 := ih hl
    simp only [countType] at ih2 ⊢
    cases hs : a.scanType
    · simp [List.filter_cons, hs]; omega
    · simp [List.filter_cons, hs]; omega
    · exact absurd hs ha

/-- C27.  From a scan history without rows of kind `unknown` (the empty history
in particular), every history reached through any sequence of recognize, purge
and subject-deletion operations has no row of kind `unknown`, and the
statistics computed on it report `successScans + failedScans = totalScans`. -/
theorem no_unknown_rows_and_stats_add_up (fl : ℚ → ℚ) (today : Nat) (db0 : Db)
    (ops : List Op) (h0 : NoUnknown db0.scans) :
    NoUnknown (run db0 ops).scans
      ∧ (stats fl today (run db0 ops)).2.successScans
          + (stats fl today (run db0 ops)).2.failedScans
        = (stats fl today (run db0 ops)).2.totalScans := by
  have h := run_noUnknown db0 ops h0
  exact ⟨h, countType_add_of_noUnknown _ h⟩

theorem no_unknown_rows_and_stats_add_up_witness :
    NoUnknown demoDb.scans
      ∧ (stats id 0 (run demoDb
            [Op.recognize scanRequest envMatch, Op.recognize scanRequest envStaleId,
             Op.deleteEmployee 1, Op.clearHistory purgeDefault purgeEnv])).2.successScans
          + (stats id 0 (run demoDb
            [Op.recognize scanRequest envMatch, Op.recognize scanRequest envStaleId,
             Op.deleteEmployee 1, Op.clearHistory purgeDefault purgeEnv])).2.failedScans
        = (stats id 0 (run demoDb
            [Op.recognize scanRequest envMatch, Op.recognize scanRequest envStaleId,
             Op.deleteEmployee 1, Op.clearHistory purgeDefault purgeEnv])).2.totalScans :=
  ⟨fun _ hr => by simp [demoDb] at hr,
    (no_unknown_rows_and_stats_add_up id 0 demoDb _ (fun _ hr => by simp [demoDb] at hr)).2⟩

/-! ## The active flag -/

theorem findByPk_setActive (employees : List Employee) (k id : Nat) (b : Bool) :
    findByPk (employees.map (fun e => if e.id = k then { e with isActive := b } else e)) id
      = (findByPk employees id).map
          (fun e => if e.id = k then { e with isActive := b } else e) := by
  induction employees with
  | nil => rfl
  | cons a l ih =>
    unfold findByPk at ih ⊢
    simp only [List.map_cons, List.find?_cons]
    have hid : (if a.id = k then { a with isActive := b } else a).id = a.id := by
      split <;> rfl
    rw [hid]
    cases h : (a.id == id)
    · simpa using ih
    · simp

/-- C29 (counterexample).  With the oracle naming subject 1, the response for
the registry in which subject 1 is inactive differs from the response for the
registry in which it is active: the employee object in the body carries the
flag. -/
theorem response_carries_active_flag :
    (recognize scanRequest envMatch (setActive 1 false demoDb)).response
        ≠ (recognize scanRequest envMatch demoDb).response
      ∧ newRows scanRequest envMatch (setActive 1 false demoDb)
        = newRows scanRequest envMatch demoDb := by
  constructor
  · intro h
    have h2 : (match (recognize scanRequest envMatch (setActive 1 false demoDb)).response.body with
        | Body.result b => Option.map Employee.isActive b.employee
        | Body.error _ _ => none)
      = (match (recognize scanRequest envMatch demoDb).response.body with
        | Body.result b => Option.map Employee.isActive b.employee
        | Body.error _ _ => none) := by rw [h]
    revert h2
    decide
  · rfl

/-- C29 (amended).  Two registries that differ only in the `isActive` value of
one subject produce, for the same request and oracle answer, the same rows in
the scan history, the same status and the same number of oracle calls, and
responses that are equal once the `isActive` field of the employee object in the
body is blanked (so `recognized`, `confidence`, `scanId` and `message` are the
same). -/
theorem outcome_independent_of_active_flag (req : Request) (env : Env) (db : Db)
    (k : Nat) (b : Bool) :
    newRows req env (setActive k b db) = newRows req env db
      ∧ (recognize req env (setActive k b db)).response.forgetActive
        = (recognize req env db).response.forgetActive
      ∧ (recognize req env (setActive k b db)).response.status
        = (recognize req env db).response.status
      ∧ (recognize req env (setActive k b db)).oracleCalls
        = (recognize req env db).oracleCalls := by
  rcases env with ⟨oracle, io, now, emitNow, catchNow⟩
  rcases hfile : req.file with _ | file
  · simp [newRows, recognize, tryBlock, hfile, setActive, Response.forgetActive]
  rcases oracle with msg | ⟨recognized, employeeId, confidence⟩
  · simp [newRows, recognize, tryBlock, hfile, ScanHistory.create, setActive,
      Response.forgetActive]
  rcases recognized with _ | _
  · rcases io with _ | _ | m <;>
      simp [newRows, recognize, tryBlock, hfile, recordAttempt, ScanHistory.create, respond,
        setActive, Response.forgetActive]
  rcases employeeId with _ | id
  · rcases io with _ | _ | m <;>
      simp [newRows, recognize, tryBlock, hfile, recordAttempt, ScanHistory.create, respond,
        truthyId, setActive, Response.forgetActive]
  by_cases hid : id = 0
  · rcases io with _ | _ | m <;>
      simp [newRows, recognize, tryBlock, hfile, recordAttempt, ScanHistory.create, respond,
        truthyId, hid, setActive, Response.forgetActive]
  have hset := findByPk_setActive db.employees k id b
  cases hfind : findByPk db.employees id with
  | none =>
    rw [hfind] at hset
    rcases io with _ | _ | m <;>
      simp [newRows, recognize, tryBlock, hfile, recordAttempt, ScanHistory.create, respond,
        truthyId, hid, hfind, setActive, hset, Response.forgetActive]
  | some e =>
    rw [hfind] at hset
    by_cases hk : e.id = k <;> rcases io with _ | _ | m <;>
      simp [newRows, recognize, tryBlock, hfile, recordAttempt, ScanHistory.create, respond,
        truthyId, hid, hfind, setActive, hset, hk, Response.forgetActive,
        Employee.forgetActive]

/-! ## Pages of the history -/

/-- Rounding to nearest is exact on natural numbers up to `2 ^ 53`. -/
theorem fl_natCast (fl : ℚ → ℚ) (hfl : IsDoubleRounding fl) (k : ℕ) (hk : k ≤ 2 ^ 53) :
    fl (k : ℚ) = (k : ℚ) := by
  have h := hfl.exact_int (k : ℤ) (by
    rw [abs_of_nonneg (Int.natCast_nonneg k)]
    exact_mod_cast hk)
  simpa using h

/-- While `(p - 1) * n` is below `2 ^ 53` the handler computes it exactly. -/
theorem offsetNumber_exact (fl : ℚ → ℚ) (hfl : IsDoubleRounding fl) (p n : ℕ)
    (hp : 0 < p) (hn : 0 < n) (hn2 : n < 2 ^ 53) (h : (p - 1) * n < 2 ^ 53) :
    offsetNumber fl p n = (((p - 1) * n : ℕ) : ℚ) := by
  have hp1 : p - 1 < 2 ^ 53 := lt_of_le_of_lt (Nat.le_mul_of_pos_right _ hn) h
  have hp2 : p ≤ 2 ^ 53 := by omega
  have hsub : (p : ℚ) - 1 = ((p - 1 : ℕ) : ℚ) := by
    rw [Nat.cast_sub hp]; simp
  unfold offsetNumber
  rw [fl_natCast fl hfl p hp2, hsub, fl_natCast fl hfl (p - 1) hp1.le,
    fl_natCast fl hfl n hn2.le, ← Nat.cast_mul, fl_natCast fl hfl _ h.le]

/-- `parseInt` of a natural number below `10 ^ 21` is that number. -/
theorem parseIntOfNumber_natCast (expDigit : ℚ → Nat) (k : ℕ) (hk : k < 10 ^ 21) :
    parseIntOfNumber expDigit (k : ℚ) = k := by
  have h : (k : ℚ) < 10 ^ 21 := by exact_mod_cast hk
  simp [parseIntOfNumber, h]

/-- Cutting a list into consecutive slices of length `n` and gluing the first
`t` slices together gives the list back, once `t * n` reaches its length. -/
theorem flatMap_slices (l : List ScanHistory) (n t : Nat) (ht : l.length ≤ t * n) :
    (List.range t).flatMap (fun i => (l.drop (i * n)).take n) = l := by
  induction t generalizing l with
  | zero =>
    have : l = [] := List.eq_nil_of_length_eq_zero (by omega)
    simp [this]
  | succ t ih =>
    rw [List.range_succ_eq_map, List.flatMap_cons, List.flatMap_map]
    have hrest : (List.range t).flatMap (fun i => ((l.drop n).drop (i * n)).take n)
        = l.drop n := by
      apply ih
      rw [List.length_drop]
      have : (t + 1) * n = t * n + n := by ring
      omega
    have hfun : (fun i => (l.drop ((i + 1) * n)).take n)
        = fun i => ((l.drop n).drop (i * n)).take n := by
      funext i
      rw [List.drop_drop]
      congr 2
      ring
    simp only [Nat.zero_mul, List.drop_zero, Function.comp_def, Nat.succ_eq_add_one]
    rw [hfun, hrest, List.take_append_drop]

/-- Gluing slices that agree on the indices below `t`. -/
theorem flatMap_range_congr (f g : Nat → List ScanHistory) (t : Nat)
    (h : ∀ i, i < t → f i = g i) :
    (List.range t).flatMap f = (List.range t).flatMap g := by
  induction t with
  | zero => rfl
  | succ t ih =>
    rw [List.range_succ, List.flatMap_append, List.flatMap_append,
      ih (fun i hi => h i (Nat.lt_succ_of_lt hi))]
    simp [h t (Nat.lt_succ_self t)]

/-- The number of pages times the page size reaches the number of rows, and
the pages before the last start inside the list. -/
theorem length_le_pages_mul (len n : Nat) (hn : 0 < n) :
    len ≤ ⌈(len : ℚ) / (n : ℚ)⌉.toNat * n
      ∧ ∀ i, i < ⌈(len : ℚ) / (n : ℚ)⌉.toNat → i * n < len := by
  have hnq : (0 : ℚ) < n := by exact_mod_cast hn
  have hceil : (len : ℚ) / (n : ℚ) ≤ ((⌈(len : ℚ) / (n : ℚ)⌉ : ℤ) : ℚ) := Int.le_ceil _
  have hnonneg : 0 ≤ ⌈(len : ℚ) / (n : ℚ)⌉ := Int.ceil_nonneg (by positivity)
  have hT : ((⌈(len : ℚ) / (n : ℚ)⌉.toNat : ℕ) : ℤ) = ⌈(len : ℚ) / (n : ℚ)⌉ :=
    Int.toNat_of_nonneg hnonneg
  have h1 : (len : ℚ) ≤ ((⌈(len : ℚ) / (n : ℚ)⌉ : ℤ) : ℚ) * n := by
    rwa [div_le_iff₀ hnq] at hceil
  constructor
  · rw [← hT] at h1
    exact_mod_cast h1
  · intro i hi
    have hi2 : ((i : ℤ) : ℚ) + 1 ≤ ((⌈(len : ℚ) / (n : ℚ)⌉ : ℤ) : ℚ) := by
      have : (i : ℤ) + 1 ≤ ⌈(len : ℚ) / (n : ℚ)⌉ := by omega
      exact_mod_cast this
    have hlt : ((⌈(len : ℚ) / (n : ℚ)⌉ : ℤ) : ℚ) < (len : ℚ) / (n : ℚ) + 1 :=
      Int.ceil_lt_add_one _
    have h2 : (i : ℚ) < (len : ℚ) / (n : ℚ) := by
      have : ((i : ℤ) : ℚ) = (i : ℚ) := by simp
      linarith
    have h3 : (i : ℚ) * n < len := by rwa [lt_div_iff₀ hnq] at h2
    exact_mod_cast h3

/-- The rows of page `p` are the slice at offset `(p - 1) * n` of the list the
database orders, while that offset is below `2 ^ 53`. -/
theorem pageScans_eq (env : HistoryEnv) (type : Option String) (n p : Nat) (db : Db)
    (hfl : IsDoubleRounding env.fl) (hn : 0 < n) (hn2 : n < 2 ^ 53) (hp : 0 < p)
    (hoff : (p - 1) * n < 2 ^ 53) :
    pageScans env type n p db
      = ((env.order n ((p - 1) * n)
            (db.scans.filter (matchesFilter (typeFilter type)))).drop ((p - 1) * n)).take n := by
  have hcond : ¬ (p = 0 ∨ n = 0) := by omega
  have h21 : (p - 1) * n < 10 ^ 21 := lt_of_lt_of_le hoff (by norm_num)
  simp only [pageScans, history, Option.getD_some, hcond, if_false, List.map_map,
    offsetNumber_exact env.fl hfl p n hp hn hn2 hoff, parseIntOfNumber_natCast _ _ h21]
  exact List.map_id _

/-- The second page of size 1 of `historyDb` from a database that returns the
row inserted last first among rows with equal timestamps: the rows come back in
the order of the ids 3, 2, 1, and the page holds the row with id 2. -/
theorem history_page_two_newest_first :
    orderByScannedAtDescNewestFirst historyDb.scans
        = [recentFailedRow, oldFailedRow, oldSuccessRow]
      ∧ pageScans historyEnvNewestFirst none 1 2 historyDb = [oldFailedRow] := by
  have hord : orderByScannedAtDescNewestFirst historyDb.scans
      = [recentFailedRow, oldFailedRow, oldSuccessRow] := by decide
  refine ⟨hord, ?_⟩
  have h := pageScans_eq historyEnvNewestFirst none 1 2 historyDb isDoubleRounding_id
    (by decide) (by decide) (by decide) (by decide)
  have hsel : historyDb.scans.filter (matchesFilter (typeFilter none)) = historyDb.scans := by
    decide
  have hord2 : historyEnvNewestFirst.order 1 ((2 - 1) * 1) historyDb.scans
      = [recentFailedRow, oldFailedRow, oldSuccessRow] := hord
  rw [h, hsel, hord2]
  rfl

/-- C28 (counterexample).  Page `10 ^ 21 + 1` of size 1 of the three rows of
`historyDb`: `totalPages` is 3, yet the page is not empty.  The offset
`(page - 1) * limit` is the double `1e21`, `parseInt` reads its string `1e+21`
as 1, and the page holds the second row. -/
theorem page_beyond_totalPages_not_empty :
    offsetNumber historyEnvHugePage.fl (10 ^ 21 + 1) 1 = 10 ^ 21
      ∧ parseIntOfNumber historyEnvHugePage.expDigit (10 ^ 21) = 1
      ∧ (history historyEnvHugePage historyQueryHugePage historyDb).2
        = HistoryResponse.ok
            { scans := [{ scan := oldSuccessRow, employee := some johnDoe }]
              totalCount := 3
              totalPages := some 3
              currentPage := 10 ^ 21 }
      ∧ (3 : ℕ) < 10 ^ 21 + 1 := by
  have h1 : offsetNumber historyEnvHugePage.fl (10 ^ 21 + 1) 1 = 10 ^ 21 := by
    norm_num [offsetNumber, historyEnvHugePage, historyEnv, roundNear1e21]
  have h2 : parseIntOfNumber historyEnvHugePage.expDigit (10 ^ 21) = 1 := by
    norm_num [parseIntOfNumber, historyEnvHugePage, historyEnv]
  refine ⟨h1, h2, ?_, by norm_num⟩
  have hcond : ¬ ((10 ^ 21 + 1 : ℕ) = 0 ∨ (1 : ℕ) = 0) := by norm_num
  have hsel : historyDb.scans.filter (matchesFilter (typeFilter none)) = historyDb.scans := by
    decide
  have hord : orderByScannedAtDesc historyDb.scans
      = [recentFailedRow, oldSuccessRow, oldFailedRow] := by decide
  have hord2 : historyEnvHugePage.order 1 1 historyDb.scans
      = [recentFailedRow, oldSuccessRow, oldFailedRow] := hord
  have hlen : historyDb.scans.length = 3 := rfl
  have hfl3 : historyEnvHugePage.fl (((3 : ℕ) : ℚ) / ((1 : ℕ) : ℚ)) = 3 := by
    norm_num [historyEnvHugePage, historyEnv, roundNear1e21]
  have hceil : ⌈(3 : ℚ)⌉ = 3 := by norm_num
  have hjoin : oldSuccessRow.employeeId.bind (findByPk historyDb.employees) = some johnDoe := by
    decide
  have hflp : historyEnvHugePage.fl ((10 ^ 21 + 1 : ℕ) : ℚ) = 10 ^ 21 := by
    norm_num [historyEnvHugePage, historyEnv, roundNear1e21]
  simp only [history, historyQueryHugePage, Option.getD_some, hcond, if_false, h1, h2, hsel]
  rw [hord2, hlen, hfl3, hflp, hceil]
  simp only [List.drop_succ_cons, List.drop_zero, List.take_succ_cons, List.take_zero,
    List.map_cons, List.map_nil, hjoin]

/-- Rows with pairwise distinct timestamps have one order, newest first: two
lists that hold the same rows and are both ordered that way are equal. -/
theorem order_eq_of_distinct_timestamps (rows l1 l2 : List ScanHistory)
    (hdist : ∀ a ∈ rows, ∀ b ∈ rows, a.scannedAt = b.scannedAt → a = b)
    (h1 : l1.Perm rows) (h2 : l2.Perm rows)
    (s1 : l1.Pairwise (fun a b => b.scannedAt ≤ a.scannedAt))
    (s2 : l2.Pairwise (fun a b => b.scannedAt ≤ a.scannedAt)) :
    l1 = l2 := by
  haveI : IsAntisymm ScanHistory (fun a b => b.scannedAt < a.scannedAt ∨ a = b) :=
    ⟨fun a b hab hba => by
      rcases hab with hab | hab
      · rcases hba with hba | hba
        · exact absurd hab (lt_asymm hba)
        · exact hba.symm
      · exact hab⟩
  have key : ∀ l : List ScanHistory, l.Perm rows →
      l.Pairwise (fun a b => b.scannedAt ≤ a.scannedAt) →
      l.Pairwise (fun a b => b.scannedAt < a.scannedAt ∨ a = b) := by
    intro l hl hs
    refine hs.imp_of_mem (fun {a b} ha hb hab => ?_)
    rcases lt_or_eq_of_le hab with h | h
    · exact Or.inl h
    · exact Or.inr (hdist a (hl.subset ha) b (hl.subset hb) h.symm)
  exact List.eq_of_perm_of_sorted (h1.trans h2.symm) (key l1 h1 s1) (key l2 h2 s2)

/-- When the selected rows have pairwise distinct timestamps, the database
returns them in the same order for every page. -/
theorem order_fixed_of_distinct_timestamps
    (order : Nat → Nat → List ScanHistory → List ScanHistory)
    (horder : IsOrderByScannedAtDesc order) (rows : List ScanHistory)
    (hdist : ∀ a ∈ rows, ∀ b ∈ rows, a.scannedAt = b.scannedAt → a = b)
    (limit offset : Nat) :
    order limit offset rows = order 0 0 rows :=
  order_eq_of_distinct_timestamps rows _ _ hdist (horder.perm _ _ _) (horder.perm _ _ _)
    (horder.sorted _ _ _) (horder.sorted _ _ _)

/-- C28 (amended).  For a fixed scan history, filter and page size `n` of at
least 1 (sizes below `2 ^ 53`, doubles rounded to nearest), and a database that
returns the filtered rows in one order `L` for every page, as it must when
their timestamps are pairwise distinct: `L` holds every filtered row once,
newest first; page `p` of the history, while its offset `(p - 1) * n` is below
`2 ^ 53`, is the slice of at most `n` rows of `L` at that offset, and reports
`totalPages` as the ceiling of the filtered count over `n`; the pages 1 to
`totalPages` glued together are `L`; every page beyond `totalPages` whose
offset is below `2 ^ 53` is empty. -/
theorem history_pages_partition (env : HistoryEnv) (type : Option String) (n : Nat)
    (db : Db) (L : List ScanHistory)
    (hfl : IsDoubleRounding env.fl) (horder : IsOrderByScannedAtDesc env.order)
    (hL : ∀ limit offset,
      env.order limit offset (db.scans.filter (matchesFilter (typeFilter type))) = L)
    (hn : 0 < n) (hn2 : n < 2 ^ 53) (hrows : db.scans.length < 2 ^ 53) :
    (∀ p, 0 < p → (p - 1) * n < 2 ^ 53 →
        ∃ body,
          (history env { page := some p, limit := some n, type := type } db).2
              = HistoryResponse.ok body
            ∧ body.scans.map (fun row => row.scan) = (L.drop ((p - 1) * n)).take n
            ∧ body.scans.length ≤ n
            ∧ body.totalCount = L.length
            ∧ body.totalPages = some ⌈(L.length : ℚ) / (n : ℚ)⌉)
      ∧ (List.range ⌈(L.length : ℚ) / (n : ℚ)⌉.toNat).flatMap
            (fun i => pageScans env type n (i + 1) db)
          = L
      ∧ (∀ p, ⌈(L.length : ℚ) / (n : ℚ)⌉.toNat < p → (p - 1) * n < 2 ^ 53 →
          pageScans env type n p db = [])
      ∧ L.Perm (db.scans.filter (matchesFilter (typeFilter type)))
      ∧ L.Pairwise (fun a b => b.scannedAt ≤ a.scannedAt) := by
  have hperm : L.Perm (db.scans.filter (matchesFilter (typeFilter type))) := by
    rw [← hL 0 0]
    exact horder.perm _ _ _
  have hsorted : L.Pairwise (fun a b => b.scannedAt ≤ a.scannedAt) := by
    rw [← hL 0 0]
    exact horder.sorted _ _ _
  have hlenEq : (db.scans.filter (matchesFilter (typeFilter type))).length = L.length :=
    hperm.length_eq.symm
  have hlen : L.length < 2 ^ 53 := by
    have h1 : (db.scans.filter (matchesFilter (typeFilter type))).length ≤ db.scans.length :=
      List.length_filter_le _ _
    omega
  obtain ⟨hpages, hinside⟩ := length_le_pages_mul L.length n hn
  have hpage : ∀ p, 0 < p → (p - 1) * n < 2 ^ 53 →
      pageScans env type n p db = (L.drop ((p - 1) * n)).take n := by
    intro p hp hoff
    rw [pageScans_eq env type n p db hfl hn hn2 hp hoff, hL]
  refine ⟨?_, ?_, ?_, hperm, hsorted⟩
  · intro p hp hoff
    have hcond : ¬ (p = 0 ∨ n = 0) := by omega
    have h21 : (p - 1) * n < 10 ^ 21 := lt_of_lt_of_le hoff (by norm_num)
    refine ⟨{ scans := ((L.drop ((p - 1) * n)).take n).map (fun r =>
                { scan := r, employee := r.employeeId.bind (findByPk db.employees) })
              totalCount := L.length
              totalPages := some ⌈env.fl ((L.length : ℚ) / (n : ℚ))⌉
              currentPage := env.fl (p : ℚ) }, ?_, ?_, ?_, rfl, ?_⟩
    · simp only [history, Option.getD_some, hcond, if_false,
        offsetNumber_exact env.fl hfl p n hp hn hn2 hoff, parseIntOfNumber_natCast _ _ h21,
        hL, hlenEq]
    · simp only [List.map_map]
      exact List.map_id _
    · simp only [List.length_map, List.length_take]
      exact Nat.min_le_left _ _
    · simp only [Option.some.injEq]
      exact ceil_fl_div env.fl hfl _ _ hn hlen hn2
  · have hcongr := flatMap_range_congr
      (fun i => pageScans env type n (i + 1) db)
      (fun i => (L.drop (i * n)).take n) ⌈(L.length : ℚ) / (n : ℚ)⌉.toNat
      (fun i hi => by
        have h := hpage (i + 1) (Nat.succ_pos i)
          (by simp only [Nat.add_sub_cancel]; exact lt_trans (hinside i hi) hlen)
        simpa using h)
    rw [hcongr]
    exact flatMap_slices _ n _ hpages
  · intro p hp hoff
    have hp0 : 0 < p := by omega
    rw [hpage p hp0 hoff]
    have hge : L.length ≤ (p - 1) * n :=
      le_trans hpages (Nat.mul_le_mul_right n (by omega))
    rw [List.drop_eq_nil_of_le hge]
    exact List.take_nil

theorem history_pages_partition_witness :
    IsDoubleRounding historyEnv.fl
      ∧ IsOrderByScannedAtDesc historyEnv.order
      ∧ (List.range
            ⌈(([recentFailedRow, oldFailedRow] : List ScanHistory).length : ℚ)
              / ((1 : ℕ) : ℚ)⌉.toNat).flatMap
          (fun i => pageScans historyEnv (some "failed") 1 (i + 1) historyDb)
        = [recentFailedRow, oldFailedRow]
      ∧ ∀ p, ⌈(([recentFailedRow, oldFailedRow] : List ScanHistory).length : ℚ)
              / ((1 : ℕ) : ℚ)⌉.toNat < p → (p - 1) * 1 < 2 ^ 53 →
          pageScans historyEnv (some "failed") 1 p historyDb = [] :=
  ⟨isDoubleRounding_id, isOrderBy_stable,
    (history_pages_partition historyEnv (some "failed") 1 historyDb
      [recentFailedRow, oldFailedRow] isDoubleRounding_id isOrderBy_stable
      (fun _ _ =>
        show orderByScannedAtDesc
            (historyDb.scans.filter (matchesFilter (typeFilter (some "failed"))))
          = [recentFailedRow, oldFailedRow] from by decide)
      (by decide) (by decide) (by decide)).2.1,
    (history_pages_partition historyEnv (some "failed") 1 historyDb
      [recentFailedRow, oldFailedRow] isDoubleRounding_id isOrderBy_stable
      (fun _ _ =>
        show orderByScannedAtDesc
            (historyDb.scans.filter (matchesFilter (typeFilter (some "failed"))))
          = [recentFailedRow, oldFailedRow] from by decide)
      (by decide) (by decide) (by decide)).2.2.1⟩

end FaceRecg
